import Mathlib

/-!
Verification development for the pd-table-tennis tournament core:
the standings calculator (`calculateStandings`) and the knockout bracket
progression engine (`getKnockoutRoundUpdates`) from `src/app/root.tsx`,
with data types from the repository's type declarations.

Player and match ids (strings in the source) are modelled as natural
numbers; JavaScript numbers holding integer values are modelled as `Int`;
nullable fields are modelled as `Option`.  JavaScript `Map` objects are
modelled as insertion-ordered association lists whose operations mirror
`Map.get` / `Map.set` and in-place mutation of a found entry.
-/

namespace TT

/-- Player skill tier, the TypeScript literal type `1 | 2 | 3 | 4`. -/
inductive Tier where
  | one | two | three | four
deriving DecidableEq, Repr

/-- Match phase tag (`MatchPhase` in the source). -/
inductive Phase where
  | league | knockout_r1 | knockout_r2 | semifinal | final
deriving DecidableEq, Repr

/-- Match status (`MatchStatus` in the source). -/
inductive Status where
  | scheduled | completed
deriving DecidableEq, Repr

/-- Points awarded for a win, keyed by the loser's tier (`TIER_POINTS`). -/
def TIER_POINTS : Tier → Int
  | .one => 4
  | .two => 3
  | .three => 2
  | .four => 1

/-- A player record (fields relevant to the core computations). -/
structure Player where
  id : Nat
  tier : Tier
deriving DecidableEq, Repr

/-- A match record (`Match` in the source's database types). -/
structure Match where
  id : Nat
  player1_id : Nat
  player2_id : Nat
  phase : Phase
  status : Status
  winner_id : Option Nat
  set1_p1 : Option Int
  set1_p2 : Option Int
  set2_p1 : Option Int
  set2_p2 : Option Int
  set3_p1 : Option Int
  set3_p2 : Option Int
  knockout_position : Option Int
deriving DecidableEq, Repr

/-- A match with its two denormalized player sub-objects (`MatchWithPlayers`). -/
structure MatchWithPlayers extends Match where
  player1 : Player
  player2 : Player
deriving DecidableEq, Repr

/-- A derived standings row (`PlayerStanding`). -/
structure PlayerStanding where
  player : Player
  rank : Int
  matchesPlayed : Int
  wins : Int
  losses : Int
  points : Int
  setsWon : Int
  setsLost : Int
  setDiff : Int
  pointsScored : Int
  pointsConceded : Int
  pointDiff : Int
deriving DecidableEq, Repr

/-! ### JavaScript `Map` model

Insertion-ordered association lists.  `mapSet` overwrites an existing key in
place (keeping its position) or appends a fresh key; `mapGet` returns the
value stored at the first matching key; `mapUpdate` models mutating the
object found at a key. -/

/-- Model of `Map.prototype.get`. -/
def mapGet {κ α : Type} [DecidableEq κ] : List (κ × α) → κ → Option α
  | [], _ => none
  | (k', v) :: m, k => if k' = k then some v else mapGet m k

/-- Model of `Map.prototype.set`. -/
def mapSet {κ α : Type} [DecidableEq κ] : List (κ × α) → κ → α → List (κ × α)
  | [], k, v => [(k, v)]
  | (k', v') :: m, k, v =>
      if k' = k then (k, v) :: m else (k', v') :: mapSet m k v

/-- Model of mutating in place the object stored at key `k`. -/
def mapUpdate {κ α : Type} [DecidableEq κ] : List (κ × α) → κ → (α → α) → List (κ × α)
  | [], _, _ => []
  | (k', v') :: m, k, f =>
      if k' = k then (k, f v') :: m else (k', v') :: mapUpdate m k f

/-- The standings map state: player id → standing row. -/
abbrev SMap := List (Nat × PlayerStanding)

/-- The head-to-head map state: winner id (the source stores the possibly
null `winner_id`) → (loser id → win count). -/
abbrev H2H := List (Option Nat × List (Nat × Int))

/-- Zeroed standing row created for each player at initialization. -/
def initStanding (p : Player) : PlayerStanding :=
  { player := p
    rank := 0
    matchesPlayed := 0
    wins := 0
    losses := 0
    points := 0
    setsWon := 0
    setsLost := 0
    setDiff := 0
    pointsScored := 0
    pointsConceded := 0
    pointDiff := 0 }

/-- Extract set scores from a match (`getSetScores`): each of the up to three
set-score pairs is included when both of its components are non-null. -/
def getSetScores (m : Match) : List (Int × Int) :=
  (match m.set1_p1, m.set1_p2 with
   | some a, some b => [(a, b)]
   | _, _ => []) ++
  (match m.set2_p1, m.set2_p2 with
   | some a, some b => [(a, b)]
   | _, _ => []) ++
  (match m.set3_p1, m.set3_p2 with
   | some a, some b => [(a, b)]
   | _, _ => [])

/-- Per-set update inside the standings loop: credit a set won/lost by the
score comparison (player 2 is credited on a tie, since the source tests
`p1Score > p2Score`) and accumulate raw within-set points. -/
def processSet (p1id p2id : Nat) (smap : SMap) (s : Int × Int) : SMap :=
  let smap :=
    if s.1 > s.2 then
      mapUpdate (mapUpdate smap p1id (fun x => { x with setsWon := x.setsWon + 1 }))
        p2id (fun x => { x with setsLost := x.setsLost + 1 })
    else
      mapUpdate (mapUpdate smap p2id (fun x => { x with setsWon := x.setsWon + 1 }))
        p1id (fun x => { x with setsLost := x.setsLost + 1 })
  let smap := mapUpdate smap p1id
    (fun x => { x with pointsScored := x.pointsScored + s.1
                       pointsConceded := x.pointsConceded + s.2 })
  mapUpdate smap p2id
    (fun x => { x with pointsScored := x.pointsScored + s.2
                       pointsConceded := x.pointsConceded + s.1 })

/-- Record a head-to-head win keyed by `(winner_id, loser id)`, mirroring the
source's `headToHead` nested-`Map` update. -/
def h2hAdd (h : H2H) (w : Option Nat) (l : Nat) : H2H :=
  let h := if (mapGet h w).isSome then h else mapSet h w []
  let inner := (mapGet h w).getD []
  mapSet h w (mapSet inner l (((mapGet inner l).getD 0) + 1))

/-- Process one completed league match in the standings loop body: skipped
entirely when either player id is absent from the standings map. -/
def processMatch (st : SMap × H2H) (m : MatchWithPlayers) : SMap × H2H :=
  match mapGet st.1 m.player1_id, mapGet st.1 m.player2_id with
  | some _, some _ =>
    let smap := mapUpdate st.1 m.player1_id
      (fun x => { x with matchesPlayed := x.matchesPlayed + 1 })
    let smap := mapUpdate smap m.player2_id
      (fun x => { x with matchesPlayed := x.matchesPlayed + 1 })
    let smap := (getSetScores m.toMatch).foldl (processSet m.player1_id m.player2_id) smap
    let loserId := if m.winner_id = some m.player1_id then m.player2_id else m.player1_id
    let loser := if m.winner_id = some m.player1_id then m.player2 else m.player1
    let smap :=
      if m.winner_id = some m.player1_id then
        mapUpdate
          (mapUpdate
            (mapUpdate smap m.player1_id (fun x => { x with wins := x.wins + 1 }))
            m.player2_id (fun x => { x with losses := x.losses + 1 }))
          m.player1_id (fun x => { x with points := x.points + TIER_POINTS loser.tier })
      else
        mapUpdate
          (mapUpdate
            (mapUpdate smap m.player2_id (fun x => { x with wins := x.wins + 1 }))
            m.player1_id (fun x => { x with losses := x.losses + 1 }))
          m.player2_id (fun x => { x with points := x.points + TIER_POINTS loser.tier })
    (smap, h2hAdd st.2 m.winner_id loserId)
  | _, _ => st

/-- Head-to-head comparison (`getHeadToHeadResult`): positive when player B
leads the pair, negative when player A leads, 0 when unresolved. -/
def getHeadToHeadResult (playerAId playerBId : Nat) (headToHead : H2H) : Int :=
  let aWinsOverB := ((mapGet headToHead (some playerAId)).bind
    (fun inner => mapGet inner playerBId)).getD 0
  let bWinsOverA := ((mapGet headToHead (some playerBId)).bind
    (fun inner => mapGet inner playerAId)).getD 0
  bWinsOverA - aWinsOverB

/-- The four-level standings comparator passed to `standings.sort`. -/
def compareStandings (headToHead : H2H) (a b : PlayerStanding) : Int :=
  if b.points ≠ a.points then b.points - a.points
  else
    let h2hResult := getHeadToHeadResult a.player.id b.player.id headToHead
    if h2hResult ≠ 0 then h2hResult
    else if b.setDiff ≠ a.setDiff then b.setDiff - a.setDiff
    else b.pointsScored - a.pointsScored

/-- Insert an element into an already processed prefix, placing it before the
first element that compares strictly greater (so equal elements keep their
relative input order, as the ECMAScript stable sort requires). -/
def insertCmp {α : Type} (c : α → α → Int) (x : α) : List α → List α
  | [] => [x]
  | y :: ys => if c x y < 0 then x :: y :: ys else y :: insertCmp c x ys

/-- Model of the ECMAScript stable `Array.prototype.sort` with a comparator:
a stable insertion sort.  For a consistent comparator this computes the
unique stable sorted permutation that the ECMAScript specification
prescribes. -/
def sortCmp {α : Type} (c : α → α → Int) (l : List α) : List α :=
  l.foldl (fun acc x => insertCmp c x acc) []

/-- Rank assignment after the sort (`standings.forEach((s, i) => s.rank = i + 1)`). -/
def assignRanksFrom (i : Int) : List PlayerStanding → List PlayerStanding
  | [] => []
  | s :: t => { s with rank := i } :: assignRanksFrom (i + 1) t

/-- Initialization loop: one zeroed standing per player, keyed by id. -/
def initMap (players : List Player) : SMap :=
  players.foldl (fun m p => mapSet m p.id (initStanding p)) []

/-- The filter selecting the matches that standings are computed from. -/
def leagueFilter (ms : List MatchWithPlayers) : List MatchWithPlayers :=
  ms.filter (fun m => decide (m.phase = Phase.league) && decide (m.status = Status.completed))

/-- Everything `calculateStandings` computes before the sort: the aggregated
standings rows (with `setDiff`/`pointDiff` filled in) in map insertion order,
and the head-to-head table. -/
def prepStandings (players : List Player) (ms : List MatchWithPlayers) :
    List PlayerStanding × H2H :=
  let standingsMap := initMap players
  let st := (leagueFilter ms).foldl processMatch (standingsMap, [])
  ((st.1.map (fun e => e.2)).map
      (fun s => { s with setDiff := s.setsWon - s.setsLost
                         pointDiff := s.pointsScored - s.pointsConceded }),
   st.2)

/-- The head-to-head table built while computing standings. -/
def h2hOf (players : List Player) (ms : List MatchWithPlayers) : H2H :=
  (prepStandings players ms).2

/-- Calculate league standings (`calculateStandings`): aggregate completed
league matches, sort by the four-level comparator, assign 1-based ranks. -/
def calculateStandings (players : List Player) (ms : List MatchWithPlayers) :
    List PlayerStanding :=
  let pre := prepStandings players ms
  assignRanksFrom 1 (sortCmp (compareStandings pre.2) pre.1)

/-! ### Bracket progression engine -/

/-- An expected next-round matchup computed by `generateNextRoundMatchups`. -/
structure Matchup where
  player1_id : Nat
  player2_id : Nat
  knockout_position : Option Int
deriving DecidableEq, Repr

/-- A row of the `inserts` output of `getKnockoutRoundUpdates`. -/
structure InsertRec where
  player1_id : Nat
  player2_id : Nat
  phase : Phase
  status : Status
  knockout_position : Option Int
deriving DecidableEq, Repr

/-- One entry of the knockout phase progression configuration. -/
structure KnockoutProgression where
  currentPhase : Phase
  nextPhase : Phase
  expectedMatches : Nat
deriving DecidableEq, Repr

/-- The fixed phase→next-phase rule table (`KNOCKOUT_PROGRESSION`). -/
def KNOCKOUT_PROGRESSION : List KnockoutProgression :=
  [ { currentPhase := .knockout_r1, nextPhase := .knockout_r2, expectedMatches := 4 }
  , { currentPhase := .knockout_r2, nextPhase := .semifinal, expectedMatches := 2 }
  , { currentPhase := .semifinal, nextPhase := .final, expectedMatches := 2 } ]

/-- Unordered player-pair comparison between an existing match and an expected
matchup, as written twice inside `getKnockoutRoundUpdates`. -/
def pairEqME (existing : Match) (e : Matchup) : Bool :=
  (decide (existing.player1_id = e.player1_id) && decide (existing.player2_id = e.player2_id)) ||
  (decide (existing.player1_id = e.player2_id) && decide (existing.player2_id = e.player1_id))

/-- Generate the expected matchups for a knockout phase
(`generateNextRoundMatchups`): fixed bracket paths read off the
`knockout_position` slots of the previous round, `null` when any required
input is missing. -/
def generateNextRoundMatchups (phase : Phase) (winners : List Nat)
    (standings : List PlayerStanding) (allKnockoutMatches : List Match) :
    Option (List Matchup) :=
  if phase = Phase.knockout_r2 then
    let r1Matches := allKnockoutMatches.filter (fun m => decide (m.phase = Phase.knockout_r1))
    let pos1Match := r1Matches.find? (fun m => decide (m.knockout_position = some 1))
    let pos2Match := r1Matches.find? (fun m => decide (m.knockout_position = some 2))
    let pos3Match := r1Matches.find? (fun m => decide (m.knockout_position = some 3))
    let pos4Match := r1Matches.find? (fun m => decide (m.knockout_position = some 4))
    match pos1Match.bind (fun m => m.winner_id), pos2Match.bind (fun m => m.winner_id),
          pos3Match.bind (fun m => m.winner_id), pos4Match.bind (fun m => m.winner_id) with
    | some w1, some w2, some w3, some w4 =>
        some [ { player1_id := w1, player2_id := w2, knockout_position := some 1 }
             , { player1_id := w3, player2_id := w4, knockout_position := some 2 } ]
    | _, _, _, _ => none
  else if phase = Phase.semifinal then
    let byePlayers := standings.take 2
    let r2Matches := allKnockoutMatches.filter (fun m => decide (m.phase = Phase.knockout_r2))
    let topBracketR2 := r2Matches.find? (fun m => decide (m.knockout_position = some 1))
    let bottomBracketR2 := r2Matches.find? (fun m => decide (m.knockout_position = some 2))
    match topBracketR2.bind (fun m => m.winner_id),
          bottomBracketR2.bind (fun m => m.winner_id), byePlayers with
    | some wTop, some wBottom, [bye1, bye2] =>
        some [ { player1_id := bye1.player.id, player2_id := wTop, knockout_position := some 1 }
             , { player1_id := bye2.player.id, player2_id := wBottom, knockout_position := some 2 } ]
    | _, _, _ => none
  else if phase = Phase.final then
    match winners with
    | [w1, w2] => some [ { player1_id := w1, player2_id := w2, knockout_position := none } ]
    | _ => none
  else
    none

/-- The loop body of `getKnockoutRoundUpdates` for a single progression entry:
either skips (all guards in the source `continue`) or produces this phase
transition's inserts and deletes. -/
def progressionOps (allKnockoutMatches : List Match) (standings : List PlayerStanding)
    (progression : KnockoutProgression) : List InsertRec × List Nat :=
  let phaseMatches := allKnockoutMatches.filter
    (fun m => decide (m.phase = progression.currentPhase))
  if phaseMatches.length ≠ progression.expectedMatches then ([], [])
  else if ¬ (phaseMatches.all (fun m => decide (m.status = Status.completed))) then ([], [])
  else
    let winners := phaseMatches.filterMap (fun m => m.winner_id)
    if winners.length ≠ progression.expectedMatches then ([], [])
    else
      match generateNextRoundMatchups progression.nextPhase winners standings
              allKnockoutMatches with
      | none => ([], [])
      | some expectedMatchups =>
        let nextPhaseMatches := allKnockoutMatches.filter
          (fun m => decide (m.phase = progression.nextPhase))
        let scheduledMatches := nextPhaseMatches.filter
          (fun m => decide (m.status = Status.scheduled))
        let staleScheduledMatches := scheduledMatches.filter
          (fun ex => ¬ expectedMatchups.any (fun e => pairEqME ex e))
        let missingMatchups := expectedMatchups.filter
          (fun e => ¬ nextPhaseMatches.any (fun ex => pairEqME ex e))
        (missingMatchups.map (fun mm =>
            { player1_id := mm.player1_id
              player2_id := mm.player2_id
              phase := progression.nextPhase
              status := Status.scheduled
              knockout_position := mm.knockout_position }),
         staleScheduledMatches.map (fun m => m.id))

/-- Compute the bracket reconciliation diff (`getKnockoutRoundUpdates`):
the concatenation, over the fixed progression table, of each phase
transition's inserts and deletes. -/
def getKnockoutRoundUpdates (allKnockoutMatches : List Match)
    (standings : List PlayerStanding) : List InsertRec × List Nat :=
  KNOCKOUT_PROGRESSION.foldl
    (fun acc progression =>
      let ops := progressionOps allKnockoutMatches standings progression
      (acc.1 ++ ops.1, acc.2 ++ ops.2))
    ([], [])

/-! ### Derived notions used to state properties of the engine -/

/-- The winners list the engine computes for a progression's current phase. -/
def winnersOf (allKnockoutMatches : List Match) (progression : KnockoutProgression) :
    List Nat :=
  (allKnockoutMatches.filter (fun m => decide (m.phase = progression.currentPhase))).filterMap
    (fun m => m.winner_id)

/-- Whether a phase transition fires: all the guards of the loop body hold. -/
def firesb (allKnockoutMatches : List Match) (standings : List PlayerStanding)
    (progression : KnockoutProgression) : Bool :=
  let phaseMatches := allKnockoutMatches.filter
    (fun m => decide (m.phase = progression.currentPhase))
  decide (phaseMatches.length = progression.expectedMatches) &&
  phaseMatches.all (fun m => decide (m.status = Status.completed)) &&
  decide ((phaseMatches.filterMap (fun m => m.winner_id)).length
    = progression.expectedMatches) &&
  (generateNextRoundMatchups progression.nextPhase
    (phaseMatches.filterMap (fun m => m.winner_id)) standings allKnockoutMatches).isSome

/-- The expected next-phase matchups of a progression, when derivable. -/
def expectedOf (allKnockoutMatches : List Match) (standings : List PlayerStanding)
    (progression : KnockoutProgression) : Option (List Matchup) :=
  generateNextRoundMatchups progression.nextPhase
    (winnersOf allKnockoutMatches progression) standings allKnockoutMatches

/-- Realize one `inserts` row as a stored match with a given fresh id:
a scheduled match with the row's players, phase and bracket slot. -/
def insertToMatch (nid : Nat) (i : InsertRec) : Match :=
  { id := nid
    player1_id := i.player1_id
    player2_id := i.player2_id
    phase := i.phase
    status := i.status
    winner_id := none
    set1_p1 := none
    set1_p2 := none
    set2_p1 := none
    set2_p2 := none
    set3_p1 := none
    set3_p2 := none
    knockout_position := i.knockout_position }

/-- Store each insert row as a new match, numbering ids from `base`. -/
def attachIds (base : Nat) : List InsertRec → List Match
  | [] => []
  | i :: t => insertToMatch base i :: attachIds (base + 1) t

/-- Apply a diff returned by `getKnockoutRoundUpdates` to the match list:
remove the deleted ids and append the inserts as new matches with fresh ids. -/
def applyDiff (allKnockoutMatches : List Match) (d : List InsertRec × List Nat) :
    List Match :=
  allKnockoutMatches.filter (fun m => ¬ d.2.contains m.id) ++
    attachIds ((allKnockoutMatches.map (fun m => m.id)).foldl max 0 + 1) d.1

/-! ### Lemmas about the map model -/

theorem mapGet_mapUpdate_self {κ α : Type} [DecidableEq κ] (m : List (κ × α)) (k : κ)
    (f : α → α) : mapGet (mapUpdate m k f) k = (mapGet m k).map f := by
  induction m with
  | nil => rfl
  | cons e t ih =>
    obtain ⟨k', v⟩ := e
    by_cases h : k' = k
    · subst h
      simp [mapGet, mapUpdate]
    · simp [mapGet, mapUpdate, h, ih]

theorem mapGet_mapUpdate_ne {κ α : Type} [DecidableEq κ] (m : List (κ × α)) {k k' : κ}
    (f : α → α) (h : k' ≠ k) : mapGet (mapUpdate m k f) k' = mapGet m k' := by
  induction m with
  | nil => rfl
  | cons e t ih =>
    obtain ⟨k'', v⟩ := e
    by_cases h2 : k'' = k
    · subst h2
      simp [mapGet, mapUpdate, Ne.symm h]
    · by_cases h3 : k'' = k'
      · subst h3
        simp [mapGet, mapUpdate, h2]
      · simp [mapGet, mapUpdate, h2, h3, ih]

theorem mapGet_map_mapUpdate {κ α β : Type} [DecidableEq κ] (m : List (κ × α)) (k k' : κ)
    (f : α → α) (F : α → β) (hf : ∀ x, F (f x) = F x) :
    (mapGet (mapUpdate m k f) k').map F = (mapGet m k').map F := by
  by_cases h : k' = k
  · subst h
    rw [mapGet_mapUpdate_self]
    cases mapGet m k' <;> simp [hf]
  · rw [mapGet_mapUpdate_ne _ _ h]

theorem mapUpdate_keys {κ α : Type} [DecidableEq κ] (m : List (κ × α)) (k : κ) (f : α → α) :
    (mapUpdate m k f).map Prod.fst = m.map Prod.fst := by
  induction m with
  | nil => rfl
  | cons e t ih =>
    obtain ⟨k', v⟩ := e
    by_cases h : k' = k
    · subst h
      simp [mapUpdate]
    · simp [mapUpdate, h, ih]

theorem mapUpdate_length {κ α : Type} [DecidableEq κ] (m : List (κ × α)) (k : κ) (f : α → α) :
    (mapUpdate m k f).length = m.length := by
  have := congrArg List.length (mapUpdate_keys m k f)
  simpa using this

theorem mapGet_isSome_mapUpdate {κ α : Type} [DecidableEq κ] (m : List (κ × α)) (k k' : κ)
    (f : α → α) : (mapGet (mapUpdate m k f) k').isSome = (mapGet m k').isSome := by
  by_cases h : k' = k
  · subst h
    rw [mapGet_mapUpdate_self]
    cases mapGet m k' <;> rfl
  · rw [mapGet_mapUpdate_ne _ _ h]

theorem mem_mapUpdate {κ α : Type} [DecidableEq κ] {m : List (κ × α)} {k : κ} {f : α → α}
    {e : κ × α} (he : e ∈ mapUpdate m k f) :
    e ∈ m ∨ ∃ v, (k, v) ∈ m ∧ e = (k, f v) := by
  induction m with
  | nil => simp [mapUpdate] at he
  | cons hd t ih =>
    obtain ⟨k', v⟩ := hd
    by_cases h : k' = k
    · subst h
      simp only [mapUpdate, if_pos rfl] at he
      rcases List.mem_cons.mp he with h1 | h1
      · exact Or.inr ⟨v, List.mem_cons_self _ _, h1⟩
      · exact Or.inl (List.mem_cons_of_mem _ h1)
    · simp only [mapUpdate, if_neg h] at he
      rcases List.mem_cons.mp he with h1 | h1
      · exact Or.inl (h1 ▸ List.mem_cons_self _ _)
      · rcases ih h1 with h2 | ⟨v', hv', he'⟩
        · exact Or.inl (List.mem_cons_of_mem _ h2)
        · exact Or.inr ⟨v', List.mem_cons_of_mem _ hv', he'⟩

theorem mapGet_mapSet_self {κ α : Type} [DecidableEq κ] (m : List (κ × α)) (k : κ) (v : α) :
    mapGet (mapSet m k v) k = some v := by
  induction m with
  | nil => simp [mapSet, mapGet]
  | cons e t ih =>
    obtain ⟨k', v'⟩ := e
    by_cases h : k' = k
    · subst h
      simp [mapSet, mapGet]
    · simp [mapSet, mapGet, h, ih]

theorem mapGet_mapSet_ne {κ α : Type} [DecidableEq κ] (m : List (κ × α)) {k k' : κ} (v : α)
    (h : k' ≠ k) : mapGet (mapSet m k v) k' = mapGet m k' := by
  induction m with
  | nil => simp [mapSet, mapGet, Ne.symm h]
  | cons e t ih =>
    obtain ⟨k'', v'⟩ := e
    by_cases h2 : k'' = k
    · subst h2
      simp [mapSet, mapGet, Ne.symm h]
    · by_cases h3 : k'' = k'
      · subst h3
        simp [mapSet, mapGet, h2]
      · simp [mapSet, mapGet, h2, h3, ih]

theorem mapSet_keys_of_not_mem {κ α : Type} [DecidableEq κ] {m : List (κ × α)} {k : κ}
    (v : α) (h : k ∉ m.map Prod.fst) :
    (mapSet m k v).map Prod.fst = m.map Prod.fst ++ [k] := by
  induction m with
  | nil => simp [mapSet]
  | cons e t ih =>
    obtain ⟨k', v'⟩ := e
    simp only [List.map_cons, List.mem_cons] at h
    push_neg at h
    simp [mapSet, Ne.symm h.1, ih h.2]

theorem mem_mapSet {κ α : Type} [DecidableEq κ] {m : List (κ × α)} {k : κ} {v : α}
    {e : κ × α} (he : e ∈ mapSet m k v) : e ∈ m ∨ e = (k, v) := by
  induction m with
  | nil => simpa [mapSet] using he
  | cons hd t ih =>
    obtain ⟨k', v'⟩ := hd
    by_cases h : k' = k
    · subst h
      simp only [mapSet, if_pos rfl] at he
      rcases List.mem_cons.mp he with h1 | h1
      · exact Or.inr h1
      · exact Or.inl (List.mem_cons_of_mem _ h1)
    · simp only [mapSet, if_neg h] at he
      rcases List.mem_cons.mp he with h1 | h1
      · exact Or.inl (h1 ▸ List.mem_cons_self _ _)
      · rcases ih h1 with h2 | h2
        · exact Or.inl (List.mem_cons_of_mem _ h2)
        · exact Or.inr h2

/-! ### Field sums over the standings map -/

/-- Sum of a standings field over the values of the standings map. -/
def sumField (F : PlayerStanding → Int) (m : SMap) : Int :=
  (m.map (fun e => F e.2)).sum

theorem sumField_mapUpdate_preserve (m : SMap) (k : Nat) (g : PlayerStanding → PlayerStanding)
    (F : PlayerStanding → Int) (hg : ∀ x, F (g x) = F x) :
    sumField F (mapUpdate m k g) = sumField F m := by
  induction m with
  | nil => rfl
  | cons e t ih =>
    obtain ⟨k', v⟩ := e
    by_cases h : k' = k
    · subst h
      simp [sumField, mapUpdate, hg]
    · simp only [mapUpdate, if_neg h]
      simp only [sumField, List.map_cons, List.sum_cons] at ih ⊢
      omega

theorem sumField_mapUpdate_get (m : SMap) (k : Nat) (g : PlayerStanding → PlayerStanding)
    (F : PlayerStanding → Int) {v : PlayerStanding} (hv : mapGet m k = some v) :
    sumField F (mapUpdate m k g) = sumField F m - F v + F (g v) := by
  induction m with
  | nil => simp [mapGet] at hv
  | cons e t ih =>
    obtain ⟨k', v'⟩ := e
    by_cases h : k' = k
    · subst h
      simp [mapGet] at hv
      subst hv
      simp [mapUpdate, sumField]
      omega
    · simp only [mapGet, if_neg h] at hv
      have := ih hv
      simp [mapUpdate, h, sumField, List.map_cons] at this ⊢
      omega

theorem mapGet_map_processSet (p1 p2 : Nat) (m : SMap) (s : Int × Int) (k : Nat)
    {β : Type} (F : PlayerStanding → β)
    (h1 : ∀ x, F { x with setsWon := x.setsWon + 1 } = F x)
    (h2 : ∀ x, F { x with setsLost := x.setsLost + 1 } = F x)
    (h3 : ∀ x a b, F { x with pointsScored := a, pointsConceded := b } = F x) :
    (mapGet (processSet p1 p2 m s) k).map F = (mapGet m k).map F := by
  by_cases hgt : s.1 > s.2 <;>
    simp only [processSet, if_pos, if_neg, hgt, ite_true, ite_false] <;>
    rw [mapGet_map_mapUpdate _ _ _ _ F (fun x => h3 x _ _),
        mapGet_map_mapUpdate _ _ _ _ F (fun x => h3 x _ _),
        mapGet_map_mapUpdate _ _ _ _ F h2, mapGet_map_mapUpdate _ _ _ _ F h1]

theorem mapGet_map_processSet_foldl (p1 p2 : Nat) (m : SMap) (sets : List (Int × Int))
    (k : Nat) {β : Type} (F : PlayerStanding → β)
    (h1 : ∀ x, F { x with setsWon := x.setsWon + 1 } = F x)
    (h2 : ∀ x, F { x with setsLost := x.setsLost + 1 } = F x)
    (h3 : ∀ x a b, F { x with pointsScored := a, pointsConceded := b } = F x) :
    (mapGet (sets.foldl (processSet p1 p2) m) k).map F = (mapGet m k).map F := by
  induction sets generalizing m with
  | nil => rfl
  | cons s t ih => rw [List.foldl_cons, ih, mapGet_map_processSet _ _ _ _ _ F h1 h2 h3]

theorem sumField_processSet (p1 p2 : Nat) (m : SMap) (s : Int × Int)
    (F : PlayerStanding → Int)
    (h1 : ∀ x, F { x with setsWon := x.setsWon + 1 } = F x)
    (h2 : ∀ x, F { x with setsLost := x.setsLost + 1 } = F x)
    (h3 : ∀ x a b, F { x with pointsScored := a, pointsConceded := b } = F x) :
    sumField F (processSet p1 p2 m s) = sumField F m := by
  by_cases hgt : s.1 > s.2 <;>
    simp only [processSet, if_pos, if_neg, hgt, ite_true, ite_false] <;>
    rw [sumField_mapUpdate_preserve _ _ _ F (fun x => h3 x _ _),
        sumField_mapUpdate_preserve _ _ _ F (fun x => h3 x _ _),
        sumField_mapUpdate_preserve _ _ _ F h2, sumField_mapUpdate_preserve _ _ _ F h1]

theorem sumField_processSet_foldl (p1 p2 : Nat) (m : SMap) (sets : List (Int × Int))
    (F : PlayerStanding → Int)
    (h1 : ∀ x, F { x with setsWon := x.setsWon + 1 } = F x)
    (h2 : ∀ x, F { x with setsLost := x.setsLost + 1 } = F x)
    (h3 : ∀ x a b, F { x with pointsScored := a, pointsConceded := b } = F x) :
    sumField F (sets.foldl (processSet p1 p2) m) = sumField F m := by
  induction sets generalizing m with
  | nil => rfl
  | cons s t ih => rw [List.foldl_cons, ih, sumField_processSet _ _ _ _ F h1 h2 h3]

theorem mapGet_isSome_processSet_foldl (p1 p2 : Nat) (m : SMap) (sets : List (Int × Int))
    (k : Nat) :
    (mapGet (sets.foldl (processSet p1 p2) m) k).isSome = (mapGet m k).isSome := by
  have h := mapGet_map_processSet_foldl p1 p2 m sets k (fun _ => ())
    (fun _ => rfl) (fun _ => rfl) (fun _ _ _ => rfl)
  cases h1 : mapGet (sets.foldl (processSet p1 p2) m) k <;>
    cases h2 : mapGet m k <;> simp [h1, h2] at h ⊢

theorem mapGet_isSome_processMatch (st : SMap × H2H) (m : MatchWithPlayers) (k : Nat) :
    (mapGet (processMatch st m).1 k).isSome = (mapGet st.1 k).isSome := by
  rcases h1 : mapGet st.1 m.player1_id with _ | v1 <;>
    rcases h2 : mapGet st.1 m.player2_id with _ | v2 <;>
    simp only [processMatch, h1, h2]
  by_cases hw : m.winner_id = some m.player1_id <;>
    simp only [hw, ite_true, ite_false, if_pos, if_neg, not_false_iff] <;>
    rw [mapGet_isSome_mapUpdate, mapGet_isSome_mapUpdate, mapGet_isSome_mapUpdate,
      mapGet_isSome_processSet_foldl, mapGet_isSome_mapUpdate, mapGet_isSome_mapUpdate]

theorem sumWins_mp (m : SMap) (k : Nat) :
    sumField (fun s => s.wins)
      (mapUpdate m k (fun x => { x with matchesPlayed := x.matchesPlayed + 1 })) =
      sumField (fun s => s.wins) m :=
  sumField_mapUpdate_preserve m k _ (fun s => s.wins) (fun _ => rfl)

theorem sumWins_losses (m : SMap) (k : Nat) :
    sumField (fun s => s.wins)
      (mapUpdate m k (fun x => { x with losses := x.losses + 1 })) =
      sumField (fun s => s.wins) m :=
  sumField_mapUpdate_preserve m k _ (fun s => s.wins) (fun _ => rfl)

theorem sumWins_points (m : SMap) (k : Nat) (c : Int) :
    sumField (fun s => s.wins)
      (mapUpdate m k (fun x => { x with points := x.points + c })) =
      sumField (fun s => s.wins) m :=
  sumField_mapUpdate_preserve m k _ (fun s => s.wins) (fun _ => rfl)

theorem sumWins_processSet_foldl (p1 p2 : Nat) (m : SMap) (sets : List (Int × Int)) :
    sumField (fun s => s.wins) (sets.foldl (processSet p1 p2) m) =
      sumField (fun s => s.wins) m :=
  sumField_processSet_foldl p1 p2 m sets (fun s => s.wins)
    (fun _ => rfl) (fun _ => rfl) (fun _ _ _ => rfl)

theorem sumLosses_mp (m : SMap) (k : Nat) :
    sumField (fun s => s.losses)
      (mapUpdate m k (fun x => { x with matchesPlayed := x.matchesPlayed + 1 })) =
      sumField (fun s => s.losses) m :=
  sumField_mapUpdate_preserve m k _ (fun s => s.losses) (fun _ => rfl)

theorem sumLosses_wins (m : SMap) (k : Nat) :
    sumField (fun s => s.losses)
      (mapUpdate m k (fun x => { x with wins := x.wins + 1 })) =
      sumField (fun s => s.losses) m :=
  sumField_mapUpdate_preserve m k _ (fun s => s.losses) (fun _ => rfl)

theorem sumLosses_points (m : SMap) (k : Nat) (c : Int) :
    sumField (fun s => s.losses)
      (mapUpdate m k (fun x => { x with points := x.points + c })) =
      sumField (fun s => s.losses) m :=
  sumField_mapUpdate_preserve m k _ (fun s => s.losses) (fun _ => rfl)

theorem sumLosses_processSet_foldl (p1 p2 : Nat) (m : SMap) (sets : List (Int × Int)) :
    sumField (fun s => s.losses) (sets.foldl (processSet p1 p2) m) =
      sumField (fun s => s.losses) m :=
  sumField_processSet_foldl p1 p2 m sets (fun s => s.losses)
    (fun _ => rfl) (fun _ => rfl) (fun _ _ _ => rfl)

theorem sumField_processMatch_wins (st : SMap × H2H) (m : MatchWithPlayers) :
    sumField (fun s => s.wins) (processMatch st m).1 =
      sumField (fun s => s.wins) st.1 +
        (if ((mapGet st.1 m.player1_id).isSome && (mapGet st.1 m.player2_id).isSome) then 1
         else 0) := by
  rcases h1 : mapGet st.1 m.player1_id with _ | v1 <;>
    rcases h2 : mapGet st.1 m.player2_id with _ | v2 <;>
    simp only [processMatch, h1, h2, Option.isSome_none, Option.isSome_some,
      Bool.false_and, Bool.and_false, Bool.true_and, Bool.and_true, if_false,
      Bool.false_eq_true, ite_false, add_zero, ite_true]
  by_cases hw : m.winner_id = some m.player1_id <;>
    simp only [hw, ite_true, ite_false, if_pos, if_neg, not_false_iff]
  · have hsome : (mapGet ((getSetScores m.toMatch).foldl (processSet m.player1_id m.player2_id)
        (mapUpdate (mapUpdate st.1 m.player1_id (fun x => { x with matchesPlayed := x.matchesPlayed + 1 }))
          m.player2_id (fun x => { x with matchesPlayed := x.matchesPlayed + 1 })))
        m.player1_id).isSome = true := by
      rw [mapGet_isSome_processSet_foldl, mapGet_isSome_mapUpdate, mapGet_isSome_mapUpdate, h1]
      rfl
    obtain ⟨w, hw2⟩ := Option.isSome_iff_exists.mp hsome
    simp only [sumWins_mp, sumWins_losses, sumWins_points, sumWins_processSet_foldl,
      sumLosses_mp, sumLosses_wins, sumLosses_points, sumLosses_processSet_foldl]
    rw [sumField_mapUpdate_get _ _ _ _ hw2]
    simp only [sumWins_mp, sumWins_losses, sumWins_points, sumWins_processSet_foldl,
      sumLosses_mp, sumLosses_wins, sumLosses_points, sumLosses_processSet_foldl]
    omega
  · have hsome : (mapGet ((getSetScores m.toMatch).foldl (processSet m.player1_id m.player2_id)
        (mapUpdate (mapUpdate st.1 m.player1_id (fun x => { x with matchesPlayed := x.matchesPlayed + 1 }))
          m.player2_id (fun x => { x with matchesPlayed := x.matchesPlayed + 1 })))
        m.player2_id).isSome = true := by
      rw [mapGet_isSome_processSet_foldl, mapGet_isSome_mapUpdate, mapGet_isSome_mapUpdate, h2]
      rfl
    obtain ⟨w, hw2⟩ := Option.isSome_iff_exists.mp hsome
    simp only [sumWins_mp, sumWins_losses, sumWins_points, sumWins_processSet_foldl,
      sumLosses_mp, sumLosses_wins, sumLosses_points, sumLosses_processSet_foldl]
    rw [sumField_mapUpdate_get _ _ _ _ hw2]
    simp only [sumWins_mp, sumWins_losses, sumWins_points, sumWins_processSet_foldl,
      sumLosses_mp, sumLosses_wins, sumLosses_points, sumLosses_processSet_foldl]
    omega

theorem sumField_processMatch_losses (st : SMap × H2H) (m : MatchWithPlayers) :
    sumField (fun s => s.losses) (processMatch st m).1 =
      sumField (fun s => s.losses) st.1 +
        (if ((mapGet st.1 m.player1_id).isSome && (mapGet st.1 m.player2_id).isSome) then 1
         else 0) := by
  rcases h1 : mapGet st.1 m.player1_id with _ | v1 <;>
    rcases h2 : mapGet st.1 m.player2_id with _ | v2 <;>
    simp only [processMatch, h1, h2, Option.isSome_none, Option.isSome_some,
      Bool.false_and, Bool.and_false, Bool.true_and, Bool.and_true, if_false,
      Bool.false_eq_true, ite_false, add_zero, ite_true]
  by_cases hw : m.winner_id = some m.player1_id <;>
    simp only [hw, ite_true, ite_false, if_pos, if_neg, not_false_iff]
  · have hsome : (mapGet (mapUpdate ((getSetScores m.toMatch).foldl
        (processSet m.player1_id m.player2_id)
        (mapUpdate (mapUpdate st.1 m.player1_id (fun x => { x with matchesPlayed := x.matchesPlayed + 1 }))
          m.player2_id (fun x => { x with matchesPlayed := x.matchesPlayed + 1 })))
        m.player1_id (fun x => { x with wins := x.wins + 1 }))
        m.player2_id).isSome = true := by
      rw [mapGet_isSome_mapUpdate, mapGet_isSome_processSet_foldl, mapGet_isSome_mapUpdate,
        mapGet_isSome_mapUpdate, h2]
      rfl
    obtain ⟨w, hw2⟩ := Option.isSome_iff_exists.mp hsome
    simp only [sumWins_mp, sumWins_losses, sumWins_points, sumWins_processSet_foldl,
      sumLosses_mp, sumLosses_wins, sumLosses_points, sumLosses_processSet_foldl]
    rw [sumField_mapUpdate_get _ _ _ _ hw2]
    simp only [sumWins_mp, sumWins_losses, sumWins_points, sumWins_processSet_foldl,
      sumLosses_mp, sumLosses_wins, sumLosses_points, sumLosses_processSet_foldl]
    omega
  · have hsome : (mapGet (mapUpdate ((getSetScores m.toMatch).foldl
        (processSet m.player1_id m.player2_id)
        (mapUpdate (mapUpdate st.1 m.player1_id (fun x => { x with matchesPlayed := x.matchesPlayed + 1 }))
          m.player2_id (fun x => { x with matchesPlayed := x.matchesPlayed + 1 })))
        m.player2_id (fun x => { x with wins := x.wins + 1 }))
        m.player1_id).isSome = true := by
      rw [mapGet_isSome_mapUpdate, mapGet_isSome_processSet_foldl, mapGet_isSome_mapUpdate,
        mapGet_isSome_mapUpdate, h1]
      rfl
    obtain ⟨w, hw2⟩ := Option.isSome_iff_exists.mp hsome
    simp only [sumWins_mp, sumWins_losses, sumWins_points, sumWins_processSet_foldl,
      sumLosses_mp, sumLosses_wins, sumLosses_points, sumLosses_processSet_foldl]
    rw [sumField_mapUpdate_get _ _ _ _ hw2]
    simp only [sumWins_mp, sumWins_losses, sumWins_points, sumWins_processSet_foldl,
      sumLosses_mp, sumLosses_wins, sumLosses_points, sumLosses_processSet_foldl]
    omega

theorem sumField_foldl_processMatch (F : PlayerStanding → Int)
    (hstep : ∀ (st : SMap × H2H) (m : MatchWithPlayers),
      sumField F (processMatch st m).1 = sumField F st.1 +
        (if ((mapGet st.1 m.player1_id).isSome && (mapGet st.1 m.player2_id).isSome) then 1
         else 0))
    (l : List MatchWithPlayers) (st : SMap × H2H) :
    sumField F (l.foldl processMatch st).1 = sumField F st.1 +
      (l.countP (fun m =>
        (mapGet st.1 m.player1_id).isSome && (mapGet st.1 m.player2_id).isSome) : Int) := by
  induction l generalizing st with
  | nil => simp
  | cons m t ih =>
    rw [List.foldl_cons, ih]
    have hcong : t.countP (fun a =>
        (mapGet (processMatch st m).1 a.player1_id).isSome &&
        (mapGet (processMatch st m).1 a.player2_id).isSome) =
        t.countP (fun a =>
        (mapGet st.1 a.player1_id).isSome && (mapGet st.1 a.player2_id).isSome) := by
      apply List.countP_congr
      intro a _
      rw [mapGet_isSome_processMatch, mapGet_isSome_processMatch]
    rw [hcong, hstep, List.countP_cons]
    by_cases hp : ((mapGet st.1 m.player1_id).isSome && (mapGet st.1 m.player2_id).isSome) = true <;>
      simp [hp] <;> push_cast <;> ring

/-! ### Keys, initialization and permutation lemmas -/

theorem processSet_keys (p1 p2 : Nat) (m : SMap) (s : Int × Int) :
    (processSet p1 p2 m s).map Prod.fst = m.map Prod.fst := by
  by_cases hgt : s.1 > s.2 <;>
    simp only [processSet, hgt, ite_true, ite_false, mapUpdate_keys]

theorem processSet_foldl_keys (p1 p2 : Nat) (m : SMap) (sets : List (Int × Int)) :
    (sets.foldl (processSet p1 p2) m).map Prod.fst = m.map Prod.fst := by
  induction sets generalizing m with
  | nil => rfl
  | cons s t ih => rw [List.foldl_cons, ih, processSet_keys]

theorem processMatch_keys (st : SMap × H2H) (m : MatchWithPlayers) :
    ((processMatch st m).1).map Prod.fst = st.1.map Prod.fst := by
  rcases h1 : mapGet st.1 m.player1_id with _ | v1 <;>
    rcases h2 : mapGet st.1 m.player2_id with _ | v2 <;>
    simp only [processMatch, h1, h2]
  by_cases hw : m.winner_id = some m.player1_id <;>
    simp only [hw, ite_true, ite_false] <;>
    rw [mapUpdate_keys, mapUpdate_keys, mapUpdate_keys, processSet_foldl_keys,
      mapUpdate_keys, mapUpdate_keys]

theorem foldl_processMatch_keys (l : List MatchWithPlayers) (st : SMap × H2H) :
    ((l.foldl processMatch st).1).map Prod.fst = st.1.map Prod.fst := by
  induction l generalizing st with
  | nil => rfl
  | cons m t ih => rw [List.foldl_cons, ih, processMatch_keys]

theorem initMap_go_keys (ps : List Player) :
    ∀ acc : SMap, (acc.map Prod.fst ++ ps.map Player.id).Nodup →
      ((ps.foldl (fun m p => mapSet m p.id (initStanding p)) acc).map Prod.fst)
        = acc.map Prod.fst ++ ps.map Player.id := by
  induction ps with
  | nil => intro acc _; simp
  | cons p t ih =>
    intro acc hnd
    have hpid : p.id ∉ acc.map Prod.fst := by
      intro hmem
      have : ¬ (acc.map Prod.fst ++ p.id :: t.map Player.id).Nodup := by
        intro hh
        rcases List.nodup_append.mp hh with ⟨-, -, hdisj⟩
        exact hdisj hmem (List.mem_cons_self _ _)
      exact this (by simpa using hnd)
    rw [List.foldl_cons, ih (mapSet acc p.id (initStanding p))]
    · rw [mapSet_keys_of_not_mem _ hpid]
      simp
    · rw [mapSet_keys_of_not_mem _ hpid]
      simpa using hnd

theorem initMap_keys (ps : List Player) (hnd : (ps.map Player.id).Nodup) :
    (initMap ps).map Prod.fst = ps.map Player.id := by
  simpa using initMap_go_keys ps [] (by simpa using hnd)

theorem mapGet_isSome_initMap_go (ps : List Player) (k : Nat) :
    ∀ acc : SMap,
      (mapGet (ps.foldl (fun m p => mapSet m p.id (initStanding p)) acc) k).isSome
        = (decide (k ∈ ps.map Player.id) || (mapGet acc k).isSome) := by
  induction ps with
  | nil => intro acc; simp
  | cons p t ih =>
    intro acc
    rw [List.foldl_cons, ih]
    by_cases h : k = p.id
    · subst h
      simp [mapGet_mapSet_self]
    · rw [mapGet_mapSet_ne _ _ h]
      simp [h]

theorem mapGet_isSome_initMap (ps : List Player) (k : Nat) :
    (mapGet (initMap ps) k).isSome = decide (k ∈ ps.map Player.id) := by
  have := mapGet_isSome_initMap_go ps k []
  simpa [initMap, mapGet] using this

theorem insertCmp_perm {α : Type} (c : α → α → Int) (x : α) (l : List α) :
    (insertCmp c x l).Perm (x :: l) := by
  induction l with
  | nil => exact List.Perm.refl _
  | cons y ys ih =>
    by_cases h : c x y < 0
    · simp only [insertCmp, if_pos h]
      exact List.Perm.refl _
    · simp only [insertCmp, if_neg h]
      exact (ih.cons y).trans (List.Perm.swap x y ys)

theorem sortCmp_go_perm {α : Type} (c : α → α → Int) (l : List α) :
    ∀ acc : List α, (l.foldl (fun a x => insertCmp c x a) acc).Perm (l ++ acc) := by
  induction l with
  | nil => intro acc; simp
  | cons x t ih =>
    intro acc
    rw [List.foldl_cons]
    exact (ih _).trans
      ((List.Perm.append_left t (insertCmp_perm c x acc)).trans List.perm_middle)

theorem sortCmp_perm {α : Type} (c : α → α → Int) (l : List α) :
    (sortCmp c l).Perm l := by
  simpa using sortCmp_go_perm c l []

theorem assignRanksFrom_length (i : Int) (l : List PlayerStanding) :
    (assignRanksFrom i l).length = l.length := by
  induction l generalizing i with
  | nil => rfl
  | cons s t ih => simp [assignRanksFrom, ih]

theorem assignRanksFrom_map_field {β : Type} (F : PlayerStanding → β)
    (hF : ∀ (s : PlayerStanding) (i : Int), F { s with rank := i } = F s)
    (i : Int) (l : List PlayerStanding) :
    (assignRanksFrom i l).map F = l.map F := by
  induction l generalizing i with
  | nil => rfl
  | cons s t ih => simp [assignRanksFrom, hF, ih]

theorem assignRanksFrom_getElem? (l : List PlayerStanding) (i : Int) (j : Nat) :
    (assignRanksFrom i l)[j]? = (l[j]?).map (fun s => { s with rank := i + j }) := by
  induction l generalizing i j with
  | nil => simp [assignRanksFrom]
  | cons s t ih =>
    cases j with
    | zero => simp [assignRanksFrom]
    | succ j =>
      have hrw := ih (i + 1) j
      simp only [assignRanksFrom, List.getElem?_cons_succ, hrw]
      cases h : t[j]? with
      | none => rfl
      | some a =>
        simp only [Option.map_some']
        have harith : i + 1 + (j : Int) = i + ((j : Nat) + 1 : Nat) := by
          push_cast
          ring
        rw [harith]

theorem calculateStandings_eq (ps : List Player) (ms : List MatchWithPlayers) :
    calculateStandings ps ms =
      assignRanksFrom 1
        (sortCmp (compareStandings (prepStandings ps ms).2) (prepStandings ps ms).1) := rfl

theorem prepStandings_fst (ps : List Player) (ms : List MatchWithPlayers) :
    (prepStandings ps ms).1 =
      ((((leagueFilter ms).foldl processMatch (initMap ps, [])).1.map (fun e => e.2)).map
        (fun s => { s with setDiff := s.setsWon - s.setsLost
                           pointDiff := s.pointsScored - s.pointsConceded })) := rfl

theorem prepStandings_snd (ps : List Player) (ms : List MatchWithPlayers) :
    (prepStandings ps ms).2 = ((leagueFilter ms).foldl processMatch (initMap ps, [])).2 := rfl

/-- The setDiff/pointDiff fill-in applied to every aggregated row. -/
def diffFields (s : PlayerStanding) : PlayerStanding :=
  { s with setDiff := s.setsWon - s.setsLost
           pointDiff := s.pointsScored - s.pointsConceded }

theorem prepStandings_fst_diffFields (ps : List Player) (ms : List MatchWithPlayers) :
    (prepStandings ps ms).1 =
      ((((leagueFilter ms).foldl processMatch (initMap ps, [])).1.map
        (fun e => e.2)).map diffFields) := rfl

theorem sumField_eq_zero_of_all (F : PlayerStanding → Int) (m : SMap)
    (h : ∀ e ∈ m, F e.2 = 0) : sumField F m = 0 := by
  induction m with
  | nil => rfl
  | cons e t ih =>
    have ht := ih (fun x hx => h x (List.mem_cons_of_mem _ hx))
    simp only [sumField, List.map_cons, List.sum_cons] at ht ⊢
    rw [h e (List.mem_cons_self _ _), ht]
    ring

theorem initMap_all_values (ps : List Player) :
    ∀ e ∈ initMap ps, ∃ p, e.2 = initStanding p := by
  suffices h : ∀ (acc : SMap), (∀ e ∈ acc, ∃ p, e.2 = initStanding p) →
      ∀ e ∈ ps.foldl (fun m p => mapSet m p.id (initStanding p)) acc, ∃ p, e.2 = initStanding p by
    exact h [] (by simp)
  induction ps with
  | nil => intro acc hacc e he; exact hacc e he
  | cons p t ih =>
    intro acc hacc e he
    refine ih (mapSet acc p.id (initStanding p)) ?_ e he
    intro x hx
    rcases mem_mapSet hx with h1 | h1
    · exact hacc x h1
    · exact ⟨p, by rw [h1]⟩

theorem sumField_initMap (ps : List Player) (F : PlayerStanding → Int)
    (h : ∀ p, F (initStanding p) = 0) : sumField F (initMap ps) = 0 := by
  apply sumField_eq_zero_of_all
  intro e he
  obtain ⟨p, hp⟩ := initMap_all_values ps e he
  rw [hp, h]

theorem countP_filter_custom {α : Type} (p q : α → Bool) (l : List α) :
    (l.filter q).countP p = l.countP (fun a => q a && p a) := by
  induction l with
  | nil => rfl
  | cons a t ih =>
    by_cases h : q a = true
    · simp [List.filter_cons, List.countP_cons, h, ih]
    · simp only [Bool.not_eq_true] at h
      simp [List.filter_cons, List.countP_cons, h, ih]

/-- The per-match presence condition used internally (both players found in
the standings map) restated on the players list. -/
theorem countP_congr_beq {α : Type} {p q : α → Bool} {l : List α}
    (h : ∀ a ∈ l, p a = q a) : l.countP p = l.countP q :=
  List.countP_congr (fun x hx => by rw [h x hx])

theorem presence_initMap (ps : List Player) (m : MatchWithPlayers) :
    ((mapGet (initMap ps) m.player1_id).isSome && (mapGet (initMap ps) m.player2_id).isSome)
      = (decide (m.player1_id ∈ ps.map Player.id) && decide (m.player2_id ∈ ps.map Player.id)) := by
  rw [mapGet_isSome_initMap, mapGet_isSome_initMap]

theorem calculateStandings_sum (ps : List Player) (ms : List MatchWithPlayers)
    (F : PlayerStanding → Int)
    (hrank : ∀ (s : PlayerStanding) (i : Int), F { s with rank := i } = F s)
    (hdiff : ∀ (s : PlayerStanding) (a b : Int), F { s with setDiff := a, pointDiff := b } = F s) :
    ((calculateStandings ps ms).map F).sum =
      sumField F ((leagueFilter ms).foldl processMatch (initMap ps, [])).1 := by
  rw [calculateStandings_eq, assignRanksFrom_map_field F hrank]
  have hperm : ((sortCmp (compareStandings (prepStandings ps ms).2)
      (prepStandings ps ms).1).map F).Perm ((prepStandings ps ms).1.map F) :=
    (sortCmp_perm _ _).map F
  rw [hperm.sum_eq, prepStandings_fst, List.map_map, List.map_map]
  have : ((((leagueFilter ms).foldl processMatch (initMap ps, [])).1).map
      ((F ∘ fun s => { s with setDiff := s.setsWon - s.setsLost
                              pointDiff := s.pointsScored - s.pointsConceded }) ∘ fun e => e.2))
      = ((((leagueFilter ms).foldl processMatch (initMap ps, [])).1).map (fun e => F e.2)) := by
    apply List.map_congr_left
    intro e _
    exact hdiff e.2 _ _
  rw [this]
  rfl

/-! ### Concrete fixtures used by witnesses and counterexamples -/

/-- A player fixture. -/
def fixP (i : Nat) (t : Tier) : Player := { id := i, tier := t }

/-- A completed two-set league match fixture. -/
def fixLeague (mid p1 p2 w : Nat) (s1a s1b s2a s2b : Int) (pl1 pl2 : Player) :
    MatchWithPlayers :=
  { id := mid, player1_id := p1, player2_id := p2, phase := .league, status := .completed
    winner_id := some w, set1_p1 := some s1a, set1_p2 := some s1b
    set2_p1 := some s2a, set2_p2 := some s2b, set3_p1 := none, set3_p2 := none
    knockout_position := none, player1 := pl1, player2 := pl2 }

/-- A knockout-phase match fixture. -/
def fixKO (mid p1 p2 : Nat) (ph : Phase) (st : Status) (w : Option Nat)
    (pos : Option Int) : Match :=
  { id := mid, player1_id := p1, player2_id := p2, phase := ph, status := st
    winner_id := w, set1_p1 := none, set1_p2 := none, set2_p1 := none, set2_p2 := none
    set3_p1 := none, set3_p2 := none, knockout_position := pos }

/-- Ten zeroed standings rows, ranks 1..10, player ids 1..10. -/
def fixStandings10 : List PlayerStanding :=
  (List.range 10).map (fun i => { initStanding (fixP (i + 1) .four) with rank := (i : Int) + 1 })

/-! ### C8 -/

/-- C8 (amended): for every players list and match list, the sum of the
`wins` fields over the returned standings equals the number of completed
league matches both of whose player ids appear in the players list, and
likewise for `losses`.  (As stated — counting all completed league
matches — the claim fails when a match references an absent player:
see the counterexample.) -/
theorem claim_C8_amended (ps : List Player) (ms : List MatchWithPlayers) :
    ((calculateStandings ps ms).map (fun s => s.wins)).sum =
      ((ms.filter (fun m => decide (m.phase = Phase.league) &&
          decide (m.status = Status.completed) &&
          decide (m.player1_id ∈ ps.map Player.id) &&
          decide (m.player2_id ∈ ps.map Player.id))).length : Int) ∧
    ((calculateStandings ps ms).map (fun s => s.losses)).sum =
      ((ms.filter (fun m => decide (m.phase = Phase.league) &&
          decide (m.status = Status.completed) &&
          decide (m.player1_id ∈ ps.map Player.id) &&
          decide (m.player2_id ∈ ps.map Player.id))).length : Int) := by
  constructor
  · rw [calculateStandings_sum ps ms (fun s => s.wins) (fun _ _ => rfl) (fun _ _ _ => rfl),
      sumField_foldl_processMatch _ sumField_processMatch_wins (leagueFilter ms) (initMap ps, []),
      sumField_initMap _ _ (fun p => rfl)]
    have hc : (leagueFilter ms).countP (fun m =>
        (mapGet (initMap ps) m.player1_id).isSome && (mapGet (initMap ps) m.player2_id).isSome) =
        (leagueFilter ms).countP (fun m =>
        decide (m.player1_id ∈ ps.map Player.id) && decide (m.player2_id ∈ ps.map Player.id)) :=
      countP_congr_beq (fun a _ => presence_initMap ps a)
    rw [hc]
    unfold leagueFilter
    rw [countP_filter_custom, ← List.countP_eq_length_filter]
    have hpred : ms.countP (fun m =>
        (decide (m.phase = Phase.league) && decide (m.status = Status.completed)) &&
        (decide (m.player1_id ∈ ps.map Player.id) && decide (m.player2_id ∈ ps.map Player.id))) =
        ms.countP (fun m => decide (m.phase = Phase.league) &&
          decide (m.status = Status.completed) &&
          decide (m.player1_id ∈ ps.map Player.id) &&
          decide (m.player2_id ∈ ps.map Player.id)) := by
      apply countP_congr_beq
      intro a _
      cases decide (a.phase = Phase.league) <;> cases decide (a.status = Status.completed) <;>
        cases decide (a.player1_id ∈ ps.map Player.id) <;>
        cases decide (a.player2_id ∈ ps.map Player.id) <;> rfl
    rw [hpred]
    ring
  · rw [calculateStandings_sum ps ms (fun s => s.losses) (fun _ _ => rfl) (fun _ _ _ => rfl),
      sumField_foldl_processMatch _ sumField_processMatch_losses (leagueFilter ms) (initMap ps, []),
      sumField_initMap _ _ (fun p => rfl)]
    have hc : (leagueFilter ms).countP (fun m =>
        (mapGet (initMap ps) m.player1_id).isSome && (mapGet (initMap ps) m.player2_id).isSome) =
        (leagueFilter ms).countP (fun m =>
        decide (m.player1_id ∈ ps.map Player.id) && decide (m.player2_id ∈ ps.map Player.id)) :=
      countP_congr_beq (fun a _ => presence_initMap ps a)
    rw [hc]
    unfold leagueFilter
    rw [countP_filter_custom, ← List.countP_eq_length_filter]
    have hpred : ms.countP (fun m =>
        (decide (m.phase = Phase.league) && decide (m.status = Status.completed)) &&
        (decide (m.player1_id ∈ ps.map Player.id) && decide (m.player2_id ∈ ps.map Player.id))) =
        ms.countP (fun m => decide (m.phase = Phase.league) &&
          decide (m.status = Status.completed) &&
          decide (m.player1_id ∈ ps.map Player.id) &&
          decide (m.player2_id ∈ ps.map Player.id)) := by
      apply countP_congr_beq
      intro a _
      cases decide (a.phase = Phase.league) <;> cases decide (a.status = Status.completed) <;>
        cases decide (a.player1_id ∈ ps.map Player.id) <;>
        cases decide (a.player2_id ∈ ps.map Player.id) <;> rfl
    rw [hpred]
    ring

/-- C8 as frozen is false: with an empty players list and one completed league
match, the wins sum is 0 while the completed-league-match count is 1. -/
theorem claim_C8_counterexample :
    ¬ (((calculateStandings []
          [fixLeague 1 1 2 1 11 0 11 0 (fixP 1 .four) (fixP 2 .four)]).map
            (fun s => s.wins)).sum =
        (([fixLeague 1 1 2 1 11 0 11 0 (fixP 1 .four) (fixP 2 .four)].filter
            (fun m => decide (m.phase = Phase.league) &&
              decide (m.status = Status.completed))).length : Int)) := by
  decide

/-! ### Pointwise effect of processing one match (C5) and one set pair (C10) -/

/-- Reading the (wins, losses, points) triple of an entry. -/
def triWLP (s : PlayerStanding) : Int × Int × Int := (s.wins, s.losses, s.points)

theorem getTri_mp (m : SMap) (k k' : Nat) :
    (mapGet (mapUpdate m k (fun x => { x with matchesPlayed := x.matchesPlayed + 1 })) k').map triWLP
      = (mapGet m k').map triWLP :=
  mapGet_map_mapUpdate m k k' (fun x => { x with matchesPlayed := x.matchesPlayed + 1 })
    triWLP (fun _ => rfl)

theorem getTri_processSet_foldl (p1 p2 : Nat) (m : SMap) (sets : List (Int × Int)) (k : Nat) :
    (mapGet (sets.foldl (processSet p1 p2) m) k).map triWLP = (mapGet m k).map triWLP :=
  mapGet_map_processSet_foldl p1 p2 m sets k triWLP (fun _ => rfl) (fun _ => rfl)
    (fun _ _ _ => rfl)

/-- Reading the (setsWon, setsLost) pair of an entry. -/
def triSets (s : PlayerStanding) : Int × Int := (s.setsWon, s.setsLost)

theorem processSet_effect (smap : SMap) (p1 p2 : Nat) (s1 s2 : PlayerStanding)
    (sc : Int × Int) (hne : p1 ≠ p2)
    (h1 : mapGet smap p1 = some s1) (h2 : mapGet smap p2 = some s2) :
    (sc.1 > sc.2 →
      (mapGet (processSet p1 p2 smap sc) p1).map triSets = some (s1.setsWon + 1, s1.setsLost) ∧
      (mapGet (processSet p1 p2 smap sc) p2).map triSets = some (s2.setsWon, s2.setsLost + 1)) ∧
    (¬ sc.1 > sc.2 →
      (mapGet (processSet p1 p2 smap sc) p1).map triSets = some (s1.setsWon, s1.setsLost + 1) ∧
      (mapGet (processSet p1 p2 smap sc) p2).map triSets = some (s2.setsWon + 1, s2.setsLost)) := by
  constructor
  · intro hgt
    simp only [processSet, hgt, ite_true]
    constructor
    · rw [mapGet_mapUpdate_ne _ _ hne, mapGet_mapUpdate_self,
        mapGet_mapUpdate_ne _ _ hne, mapGet_mapUpdate_self, h1]
      rfl
    · rw [mapGet_mapUpdate_self, mapGet_mapUpdate_ne _ _ (Ne.symm hne),
        mapGet_mapUpdate_self, mapGet_mapUpdate_ne _ _ (Ne.symm hne), h2]
      rfl
  · intro hgt
    simp only [processSet, hgt, ite_false]
    constructor
    · rw [mapGet_mapUpdate_ne _ _ hne, mapGet_mapUpdate_self,
        mapGet_mapUpdate_self, mapGet_mapUpdate_ne _ _ hne, h1]
      rfl
    · rw [mapGet_mapUpdate_self, mapGet_mapUpdate_ne _ _ (Ne.symm hne),
        mapGet_mapUpdate_ne _ _ (Ne.symm hne), mapGet_mapUpdate_self, h2]
      rfl

theorem processSet_foldl_sets (sets : List (Int × Int)) :
    ∀ (smap : SMap) (p1 p2 : Nat) (s1 s2 : PlayerStanding), p1 ≠ p2 →
      mapGet smap p1 = some s1 → mapGet smap p2 = some s2 →
      ∃ t1 t2, mapGet (sets.foldl (processSet p1 p2) smap) p1 = some t1 ∧
        mapGet (sets.foldl (processSet p1 p2) smap) p2 = some t2 ∧
        t1.setsWon + t2.setsWon = s1.setsWon + s2.setsWon + sets.length ∧
        t1.setsLost + t2.setsLost = s1.setsLost + s2.setsLost + sets.length := by
  induction sets with
  | nil =>
    intro smap p1 p2 s1 s2 hne h1 h2
    exact ⟨s1, s2, h1, h2, by simp, by simp⟩
  | cons sc rest ih =>
    intro smap p1 p2 s1 s2 hne h1 h2
    obtain ⟨heff1, heff2⟩ := processSet_effect smap p1 p2 s1 s2 sc hne h1 h2
    by_cases hgt : sc.1 > sc.2
    · obtain ⟨hg1, hg2⟩ := heff1 hgt
      obtain ⟨u1, hu1⟩ := Option.map_eq_some'.mp hg1
      obtain ⟨u2, hu2⟩ := Option.map_eq_some'.mp hg2
      obtain ⟨t1, t2, ht1, ht2, hw, hl⟩ :=
        ih (processSet p1 p2 smap sc) p1 p2 u1 u2 hne hu1.1 hu2.1
      refine ⟨t1, t2, by simpa using ht1, by simpa using ht2, ?_, ?_⟩
      · have e1 : u1.setsWon = s1.setsWon + 1 := congrArg Prod.fst hu1.2
        have e2 : u2.setsWon = s2.setsWon := congrArg Prod.fst hu2.2
        rw [hw, e1, e2]
        simp only [List.length_cons]
        push_cast
        ring
      · have e1 : u1.setsLost = s1.setsLost := congrArg Prod.snd hu1.2
        have e2 : u2.setsLost = s2.setsLost + 1 := congrArg Prod.snd hu2.2
        rw [hl, e1, e2]
        simp only [List.length_cons]
        push_cast
        ring
    · obtain ⟨hg1, hg2⟩ := heff2 hgt
      obtain ⟨u1, hu1⟩ := Option.map_eq_some'.mp hg1
      obtain ⟨u2, hu2⟩ := Option.map_eq_some'.mp hg2
      obtain ⟨t1, t2, ht1, ht2, hw, hl⟩ :=
        ih (processSet p1 p2 smap sc) p1 p2 u1 u2 hne hu1.1 hu2.1
      refine ⟨t1, t2, by simpa using ht1, by simpa using ht2, ?_, ?_⟩
      · have e1 : u1.setsWon = s1.setsWon := congrArg Prod.fst hu1.2
        have e2 : u2.setsWon = s2.setsWon + 1 := congrArg Prod.fst hu2.2
        rw [hw, e1, e2]
        simp only [List.length_cons]
        push_cast
        ring
      · have e1 : u1.setsLost = s1.setsLost + 1 := congrArg Prod.snd hu1.2
        have e2 : u2.setsLost = s2.setsLost := congrArg Prod.snd hu2.2
        rw [hl, e1, e2]
        simp only [List.length_cons]
        push_cast
        ring

/-! ### C5 -/

/-- C5 (confirmed): for a completed league match processed by the standings
loop (both players present, distinct ids, winner stored as one of the two
players), the winner's `wins` and the loser's `losses` each increase by one,
the winner's tournament `points` increase by exactly `TIER_POINTS` of the
loser's tier, and the other win/loss/point counters of the pair are
unchanged; `TIER_POINTS` is the fixed lookup tier 1→4, 2→3, 3→2, 4→1; and on
the concrete example (A tier 1 beats B tier 2 by (11,5), (11,3)) the
standings are A: points 3, wins 1, sets 2–0, setDiff 2 and B symmetric with
0 points. -/
theorem claim_C5 (st : SMap × H2H) (m : MatchWithPlayers) (s1 s2 : PlayerStanding)
    (h1 : mapGet st.1 m.player1_id = some s1) (h2 : mapGet st.1 m.player2_id = some s2)
    (hne : m.player1_id ≠ m.player2_id) :
    ((m.winner_id = some m.player1_id →
      (mapGet (processMatch st m).1 m.player1_id).map triWLP
        = some (s1.wins + 1, s1.losses, s1.points + TIER_POINTS m.player2.tier) ∧
      (mapGet (processMatch st m).1 m.player2_id).map triWLP
        = some (s2.wins, s2.losses + 1, s2.points)) ∧
     (m.winner_id = some m.player2_id →
      (mapGet (processMatch st m).1 m.player2_id).map triWLP
        = some (s2.wins + 1, s2.losses, s2.points + TIER_POINTS m.player1.tier) ∧
      (mapGet (processMatch st m).1 m.player1_id).map triWLP
        = some (s1.wins, s1.losses + 1, s1.points))) ∧
    (TIER_POINTS .one = 4 ∧ TIER_POINTS .two = 3 ∧
     TIER_POINTS .three = 2 ∧ TIER_POINTS .four = 1) ∧
    ((calculateStandings [fixP 1 .one, fixP 2 .two]
        [fixLeague 1 1 2 1 11 5 11 3 (fixP 1 .one) (fixP 2 .two)]).map
        (fun s => (s.player.id, s.rank, s.points, s.wins, s.losses))
      = [(1, 1, 3, 1, 0), (2, 2, 0, 0, 1)] ∧
     (calculateStandings [fixP 1 .one, fixP 2 .two]
        [fixLeague 1 1 2 1 11 5 11 3 (fixP 1 .one) (fixP 2 .two)]).map
        (fun s => (s.player.id, s.setsWon, s.setsLost, s.setDiff, s.pointsScored))
      = [(1, 2, 0, 2, 22), (2, 0, 2, -2, 8)]) := by
  refine ⟨⟨?_, ?_⟩, ⟨rfl, rfl, rfl, rfl⟩, by decide, by decide⟩
  · intro hw
    simp only [processMatch, h1, h2, hw, Option.some.injEq, ite_true, if_pos]
    have hS3 : (mapGet ((getSetScores m.toMatch).foldl
        (processSet m.player1_id m.player2_id)
        (mapUpdate (mapUpdate st.1 m.player1_id
            (fun x => { x with matchesPlayed := x.matchesPlayed + 1 }))
          m.player2_id (fun x => { x with matchesPlayed := x.matchesPlayed + 1 })))
        m.player1_id).map triWLP = some (triWLP s1) := by
      rw [getTri_processSet_foldl, getTri_mp, getTri_mp, h1]
      rfl
    have hS3b : (mapGet ((getSetScores m.toMatch).foldl
        (processSet m.player1_id m.player2_id)
        (mapUpdate (mapUpdate st.1 m.player1_id
            (fun x => { x with matchesPlayed := x.matchesPlayed + 1 }))
          m.player2_id (fun x => { x with matchesPlayed := x.matchesPlayed + 1 })))
        m.player2_id).map triWLP = some (triWLP s2) := by
      rw [getTri_processSet_foldl, getTri_mp, getTri_mp, h2]
      rfl
    obtain ⟨v1, hv1, hv1t⟩ := Option.map_eq_some'.mp hS3
    obtain ⟨v2, hv2, hv2t⟩ := Option.map_eq_some'.mp hS3b
    have e1w : v1.wins = s1.wins := congrArg (fun t => t.1) hv1t
    have e1l : v1.losses = s1.losses := congrArg (fun t => t.2.1) hv1t
    have e1p : v1.points = s1.points := congrArg (fun t => t.2.2) hv1t
    have e2w : v2.wins = s2.wins := congrArg (fun t => t.1) hv2t
    have e2l : v2.losses = s2.losses := congrArg (fun t => t.2.1) hv2t
    have e2p : v2.points = s2.points := congrArg (fun t => t.2.2) hv2t
    constructor
    · rw [mapGet_mapUpdate_self, mapGet_mapUpdate_ne _ _ hne, mapGet_mapUpdate_self, hv1]
      simp [triWLP, e1w, e1l, e1p]
    · rw [mapGet_mapUpdate_ne _ _ (Ne.symm hne), mapGet_mapUpdate_self,
        mapGet_mapUpdate_ne _ _ (Ne.symm hne), hv2]
      simp [triWLP, e2w, e2l, e2p]
  · intro hw
    have hcond : ¬ (m.winner_id = some m.player1_id) := by
      rw [hw]
      intro hcc
      exact hne ((Option.some.inj hcc).symm)
    simp only [processMatch, h1, h2, if_neg hcond]
    have hS3 : (mapGet ((getSetScores m.toMatch).foldl
        (processSet m.player1_id m.player2_id)
        (mapUpdate (mapUpdate st.1 m.player1_id
            (fun x => { x with matchesPlayed := x.matchesPlayed + 1 }))
          m.player2_id (fun x => { x with matchesPlayed := x.matchesPlayed + 1 })))
        m.player1_id).map triWLP = some (triWLP s1) := by
      rw [getTri_processSet_foldl, getTri_mp, getTri_mp, h1]
      rfl
    have hS3b : (mapGet ((getSetScores m.toMatch).foldl
        (processSet m.player1_id m.player2_id)
        (mapUpdate (mapUpdate st.1 m.player1_id
            (fun x => { x with matchesPlayed := x.matchesPlayed + 1 }))
          m.player2_id (fun x => { x with matchesPlayed := x.matchesPlayed + 1 })))
        m.player2_id).map triWLP = some (triWLP s2) := by
      rw [getTri_processSet_foldl, getTri_mp, getTri_mp, h2]
      rfl
    obtain ⟨v1, hv1, hv1t⟩ := Option.map_eq_some'.mp hS3
    obtain ⟨v2, hv2, hv2t⟩ := Option.map_eq_some'.mp hS3b
    have e1w : v1.wins = s1.wins := congrArg (fun t => t.1) hv1t
    have e1l : v1.losses = s1.losses := congrArg (fun t => t.2.1) hv1t
    have e1p : v1.points = s1.points := congrArg (fun t => t.2.2) hv1t
    have e2w : v2.wins = s2.wins := congrArg (fun t => t.1) hv2t
    have e2l : v2.losses = s2.losses := congrArg (fun t => t.2.1) hv2t
    have e2p : v2.points = s2.points := congrArg (fun t => t.2.2) hv2t
    constructor
    · rw [mapGet_mapUpdate_self, mapGet_mapUpdate_ne _ _ (Ne.symm hne),
        mapGet_mapUpdate_self, hv2]
      simp [triWLP, e2w, e2l, e2p]
    · rw [mapGet_mapUpdate_ne _ _ hne, mapGet_mapUpdate_self,
        mapGet_mapUpdate_ne _ _ hne, hv1]
      simp [triWLP, e1w, e1l, e1p]

/-- Fixture map for the C5 and C10 witnesses. -/
def fixMap2 : SMap :=
  [(1, initStanding (fixP 1 .one)), (2, initStanding (fixP 2 .two))]

/-- Witness for C5 at a concrete state and match. -/
theorem claim_C5_witness :
    (mapGet fixMap2 (fixLeague 1 1 2 1 11 5 11 3 (fixP 1 .one) (fixP 2 .two)).player1_id
        = some (initStanding (fixP 1 .one)) ∧
     mapGet fixMap2 (fixLeague 1 1 2 1 11 5 11 3 (fixP 1 .one) (fixP 2 .two)).player2_id
        = some (initStanding (fixP 2 .two)) ∧
     (fixLeague 1 1 2 1 11 5 11 3 (fixP 1 .one) (fixP 2 .two)).player1_id
        ≠ (fixLeague 1 1 2 1 11 5 11 3 (fixP 1 .one) (fixP 2 .two)).player2_id) ∧
    (TIER_POINTS .one = 4 ∧ TIER_POINTS .two = 3 ∧
     TIER_POINTS .three = 2 ∧ TIER_POINTS .four = 1) :=
  ⟨⟨by decide, by decide, by decide⟩,
    (claim_C5 (fixMap2, []) (fixLeague 1 1 2 1 11 5 11 3 (fixP 1 .one) (fixP 2 .two))
      (initStanding (fixP 1 .one)) (initStanding (fixP 2 .two))
      (by decide) (by decide) (by decide)).2.1⟩

/-! ### C10 -/

/-- C10 (confirmed): each present set-score pair of a processed match credits
exactly one player with a set won and the other with a set lost — player 1
exactly when their score is strictly greater, player 2 otherwise, so a tied
pair is credited as a set won by player 2 and lost by player 1 — and over a
whole match the pair's combined `setsWon` and combined `setsLost` each grow
by the number of present set pairs. -/
theorem claim_C10 (smap : SMap) (p1 p2 : Nat) (s1 s2 : PlayerStanding)
    (hne : p1 ≠ p2) (h1 : mapGet smap p1 = some s1) (h2 : mapGet smap p2 = some s2) :
    (∀ sc : Int × Int,
      (sc.1 > sc.2 →
        (mapGet (processSet p1 p2 smap sc) p1).map triSets = some (s1.setsWon + 1, s1.setsLost) ∧
        (mapGet (processSet p1 p2 smap sc) p2).map triSets = some (s2.setsWon, s2.setsLost + 1)) ∧
      (¬ sc.1 > sc.2 →
        (mapGet (processSet p1 p2 smap sc) p1).map triSets = some (s1.setsWon, s1.setsLost + 1) ∧
        (mapGet (processSet p1 p2 smap sc) p2).map triSets = some (s2.setsWon + 1, s2.setsLost)) ∧
      (sc.1 = sc.2 →
        (mapGet (processSet p1 p2 smap sc) p2).map triSets = some (s2.setsWon + 1, s2.setsLost) ∧
        (mapGet (processSet p1 p2 smap sc) p1).map triSets = some (s1.setsWon, s1.setsLost + 1))) ∧
    (∀ mm : Match, ∃ t1 t2,
      mapGet ((getSetScores mm).foldl (processSet p1 p2) smap) p1 = some t1 ∧
      mapGet ((getSetScores mm).foldl (processSet p1 p2) smap) p2 = some t2 ∧
      t1.setsWon + t2.setsWon = s1.setsWon + s2.setsWon + (getSetScores mm).length ∧
      t1.setsLost + t2.setsLost = s1.setsLost + s2.setsLost + (getSetScores mm).length) := by
  constructor
  · intro sc
    obtain ⟨heff1, heff2⟩ := processSet_effect smap p1 p2 s1 s2 sc hne h1 h2
    refine ⟨heff1, heff2, ?_⟩
    intro htie
    have hngt : ¬ sc.1 > sc.2 := by
      rw [htie]
      exact lt_irrefl _
    obtain ⟨ha, hb⟩ := heff2 hngt
    exact ⟨hb, ha⟩
  · intro mm
    exact processSet_foldl_sets (getSetScores mm) smap p1 p2 s1 s2 hne h1 h2

/-- Witness for C10 at a concrete map and a tied set pair. -/
theorem claim_C10_witness :
    ((1 : Nat) ≠ 2 ∧ mapGet fixMap2 1 = some (initStanding (fixP 1 .one)) ∧
      mapGet fixMap2 2 = some (initStanding (fixP 2 .two))) ∧
    ((mapGet (processSet 1 2 fixMap2 (9, 9)) 2).map triSets = some (0 + 1, 0) ∧
     (mapGet (processSet 1 2 fixMap2 (9, 9)) 1).map triSets = some (0, 0 + 1)) :=
  ⟨⟨by decide, by decide, by decide⟩,
    ((claim_C10 fixMap2 1 2 (initStanding (fixP 1 .one)) (initStanding (fixP 2 .two))
      (by decide) (by decide) (by decide)).1 (9, 9)).2.2 rfl⟩

/-! ### The comparator and sortedness of the output (C1) -/

theorem getHeadToHeadResult_antisymm (a b : Nat) (h : H2H) :
    getHeadToHeadResult a b h = - getHeadToHeadResult b a h := by
  unfold getHeadToHeadResult
  ring

theorem compareStandings_antisymm (h2h : H2H) (a b : PlayerStanding) :
    compareStandings h2h a b = - compareStandings h2h b a := by
  have hh : getHeadToHeadResult a.player.id b.player.id h2h
      = - getHeadToHeadResult b.player.id a.player.id h2h :=
    getHeadToHeadResult_antisymm _ _ _
  simp only [compareStandings]
  rw [hh]
  split_ifs <;> omega

/-- The output list is sorted in the adjacent sense: every consecutive pair
satisfies the comparator (compares not-greater). -/
def adjSorted (c : PlayerStanding → PlayerStanding → Int) : List PlayerStanding → Prop
  | [] => True
  | [_] => True
  | a :: b :: t => c a b ≤ 0 ∧ adjSorted c (b :: t)

theorem adjSorted_insertCmp (c : PlayerStanding → PlayerStanding → Int)
    (hanti : ∀ a b, c a b = - c b a) (x : PlayerStanding) (l : List PlayerStanding)
    (h : adjSorted c l) : adjSorted c (insertCmp c x l) := by
  induction l with
  | nil => trivial
  | cons y ys ih =>
    by_cases hxy : c x y < 0
    · simp only [insertCmp, if_pos hxy]
      exact ⟨le_of_lt hxy, h⟩
    · simp only [insertCmp, if_neg hxy]
      have hyx : c y x ≤ 0 := by
        have := hanti x y
        omega
      cases ys with
      | nil => exact ⟨hyx, trivial⟩
      | cons z zs =>
        obtain ⟨hyz, htail⟩ := h
        have hins := ih htail
        by_cases hxz : c x z < 0
        · simp only [insertCmp, if_pos hxz] at hins ⊢
          exact ⟨hyx, hins⟩
        · simp only [insertCmp, if_neg hxz] at hins ⊢
          exact ⟨hyz, hins⟩

theorem adjSorted_sortCmp_go (c : PlayerStanding → PlayerStanding → Int)
    (hanti : ∀ a b, c a b = - c b a) (l : List PlayerStanding) :
    ∀ acc : List PlayerStanding, adjSorted c acc →
      adjSorted c (l.foldl (fun a x => insertCmp c x a) acc) := by
  induction l with
  | nil => intro acc hacc; exact hacc
  | cons x t ih =>
    intro acc hacc
    rw [List.foldl_cons]
    exact ih _ (adjSorted_insertCmp c hanti x acc hacc)

theorem adjSorted_sortCmp (c : PlayerStanding → PlayerStanding → Int)
    (hanti : ∀ a b, c a b = - c b a) (l : List PlayerStanding) :
    adjSorted c (sortCmp c l) :=
  adjSorted_sortCmp_go c hanti l [] trivial

theorem compareStandings_rank_irrel (h2h : H2H) (a b : PlayerStanding) (i j : Int) :
    compareStandings h2h { a with rank := i } { b with rank := j }
      = compareStandings h2h a b := rfl

theorem adjSorted_assignRanksFrom (c : PlayerStanding → PlayerStanding → Int)
    (hc : ∀ (a b : PlayerStanding) (i j : Int),
      c { a with rank := i } { b with rank := j } = c a b)
    (i : Int) (l : List PlayerStanding) (h : adjSorted c l) :
    adjSorted c (assignRanksFrom i l) := by
  induction l generalizing i with
  | nil => trivial
  | cons s t ih =>
    cases t with
    | nil => trivial
    | cons u v =>
      obtain ⟨hsu, htail⟩ := h
      refine ⟨?_, ih (i + 1) htail⟩
      rw [hc]
      exact hsu

theorem h2hOf_eq (ps : List Player) (ms : List MatchWithPlayers) :
    h2hOf ps ms = (prepStandings ps ms).2 := rfl

/-- C1 (amended): the output of `calculateStandings` is sorted by the
four-level comparator in the adjacent sense — every consecutive pair of
standings compares not-greater under: descending points, then pairwise
head-to-head, then descending setDiff, then descending pointsScored.  (The
all-pairs form of the claim fails when head-to-head among equal-point
players is cyclic; see the counterexample.) -/
theorem claim_C1_amended (ps : List Player) (ms : List MatchWithPlayers) :
    adjSorted (compareStandings (h2hOf ps ms)) (calculateStandings ps ms) := by
  rw [calculateStandings_eq, h2hOf_eq]
  exact adjSorted_assignRanksFrom _
    (compareStandings_rank_irrel ((prepStandings ps ms).2)) 1 _
    (adjSorted_sortCmp _ (compareStandings_antisymm _) _)

/-- The all-pairs reading of the claim: among any two entries with equal
points whose comparison is resolved by head-to-head, the pairwise winner has
the strictly smaller (better) rank. -/
def pairwiseH2HRespected (h2h : H2H) (out : List PlayerStanding) : Prop :=
  ∀ a ∈ out, ∀ b ∈ out, a.points = b.points →
    getHeadToHeadResult a.player.id b.player.id h2h < 0 → a.rank < b.rank

/-- Cyclic head-to-head fixture: three equal-tier players, each with one win
over the next (1 beats 2, 2 beats 3, 3 beats 1), identical set statistics. -/
def fix1ps : List Player := [fixP 1 .four, fixP 2 .four, fixP 3 .four]

/-- The three completed league matches forming the head-to-head cycle. -/
def fix1ms : List MatchWithPlayers :=
  [ fixLeague 1 1 2 1 11 0 11 0 (fixP 1 .four) (fixP 2 .four)
  , fixLeague 2 2 3 2 11 0 11 0 (fixP 2 .four) (fixP 3 .four)
  , fixLeague 3 3 1 3 11 0 11 0 (fixP 3 .four) (fixP 1 .four) ]

/-- C1 as frozen is false: with a head-to-head cycle among equal-point
players, some pair resolved by head-to-head is ranked against the pairwise
winner (here players 2 and 3: player 2 beat player 3 but ranks below). -/
theorem claim_C1_counterexample :
    ¬ pairwiseH2HRespected (h2hOf fix1ps fix1ms) (calculateStandings fix1ps fix1ms) := by
  unfold pairwiseH2HRespected
  decide

/-! ### One standing per player (C7) -/

/-- Invariant: each stored standing's player id equals its key. -/
def mapIdsOk (m : SMap) : Prop := ∀ e ∈ m, e.2.player.id = e.1

theorem mapIdsOk_mapUpdate {m : SMap} {k : Nat} {g : PlayerStanding → PlayerStanding}
    (h : mapIdsOk m) (hg : ∀ x, (g x).player = x.player) : mapIdsOk (mapUpdate m k g) := by
  intro e he
  rcases mem_mapUpdate he with h1 | ⟨v, hv, he'⟩
  · exact h e h1
  · subst he'
    have hk := h (k, v) hv
    simp only at hk
    simp [hg, hk]

theorem mapIdsOk_processSet (p1 p2 : Nat) (m : SMap) (s : Int × Int) (h : mapIdsOk m) :
    mapIdsOk (processSet p1 p2 m s) := by
  by_cases hgt : s.1 > s.2 <;> simp only [processSet, hgt, ite_true, ite_false] <;>
    exact mapIdsOk_mapUpdate (mapIdsOk_mapUpdate (mapIdsOk_mapUpdate
      (mapIdsOk_mapUpdate h (fun _ => rfl)) (fun _ => rfl)) (fun _ => rfl)) (fun _ => rfl)

theorem mapIdsOk_processSet_foldl (p1 p2 : Nat) (m : SMap) (sets : List (Int × Int))
    (h : mapIdsOk m) : mapIdsOk (sets.foldl (processSet p1 p2) m) := by
  induction sets generalizing m with
  | nil => exact h
  | cons s t ih => exact ih _ (mapIdsOk_processSet p1 p2 m s h)

theorem mapIdsOk_processMatch (st : SMap × H2H) (m : MatchWithPlayers)
    (h : mapIdsOk st.1) : mapIdsOk (processMatch st m).1 := by
  rcases h1 : mapGet st.1 m.player1_id with _ | v1 <;>
    rcases h2 : mapGet st.1 m.player2_id with _ | v2 <;>
    simp only [processMatch, h1, h2]
  · exact h
  · exact h
  · exact h
  by_cases hw : m.winner_id = some m.player1_id <;>
    simp only [hw, ite_true, ite_false] <;>
    exact mapIdsOk_mapUpdate (mapIdsOk_mapUpdate (mapIdsOk_mapUpdate
      (mapIdsOk_processSet_foldl _ _ _ _
        (mapIdsOk_mapUpdate (mapIdsOk_mapUpdate h (fun _ => rfl)) (fun _ => rfl)))
      (fun _ => rfl)) (fun _ => rfl)) (fun _ => rfl)

theorem mapIdsOk_foldl_processMatch (l : List MatchWithPlayers) (st : SMap × H2H)
    (h : mapIdsOk st.1) : mapIdsOk (l.foldl processMatch st).1 := by
  induction l generalizing st with
  | nil => exact h
  | cons m t ih => exact ih _ (mapIdsOk_processMatch st m h)

theorem mapIdsOk_mapSet {m : SMap} {k : Nat} {v : PlayerStanding}
    (h : mapIdsOk m) (hv : v.player.id = k) : mapIdsOk (mapSet m k v) := by
  intro e he
  rcases mem_mapSet he with h1 | h1
  · exact h e h1
  · subst h1
    exact hv

theorem mapIdsOk_initMap (ps : List Player) : mapIdsOk (initMap ps) := by
  suffices hgo : ∀ acc : SMap, mapIdsOk acc →
      mapIdsOk (ps.foldl (fun m p => mapSet m p.id (initStanding p)) acc) by
    exact hgo [] (fun e he => absurd he (List.not_mem_nil e))
  induction ps with
  | nil => intro acc hacc; exact hacc
  | cons p t ih =>
    intro acc hacc
    exact ih _ (mapIdsOk_mapSet hacc rfl)

theorem mapGet_mem {κ α : Type} [DecidableEq κ] {m : List (κ × α)} {k : κ} {v : α}
    (h : mapGet m k = some v) : (k, v) ∈ m := by
  induction m with
  | nil => simp [mapGet] at h
  | cons e t ih =>
    obtain ⟨k', v'⟩ := e
    by_cases hk : k' = k
    · subst hk
      simp [mapGet] at h
      subst h
      exact List.mem_cons_self _ _
    · simp only [mapGet, if_neg hk] at h
      exact List.mem_cons_of_mem _ (ih h)

theorem mapGet_of_mem_nodup {κ α : Type} [DecidableEq κ] {m : List (κ × α)}
    (hnd : (m.map Prod.fst).Nodup) {k : κ} {v : α} (hm : (k, v) ∈ m) :
    mapGet m k = some v := by
  induction m with
  | nil => simp at hm
  | cons e t ih =>
    obtain ⟨k', v'⟩ := e
    rcases List.mem_cons.mp hm with h1 | h1
    · obtain ⟨hk, hv⟩ := Prod.mk.injEq .. ▸ h1
      injection h1 with hk2 hv2
      subst hk2
      subst hv2
      simp [mapGet]
    · have hk : k' ≠ k := by
        intro heq
        subst heq
        have : k' ∈ t.map Prod.fst := List.mem_map.mpr ⟨(k', v), h1, rfl⟩
        simp only [List.map_cons, List.nodup_cons] at hnd
        exact hnd.1 this
      simp only [mapGet, if_neg hk]
      exact ih (by simp only [List.map_cons, List.nodup_cons] at hnd; exact hnd.2) h1

theorem foldl_processMatch_length (l : List MatchWithPlayers) (st : SMap × H2H) :
    ((l.foldl processMatch st).1).length = st.1.length := by
  have h := congrArg List.length (foldl_processMatch_keys l st)
  simpa using h

theorem initMap_length (ps : List Player) (hnd : (ps.map Player.id).Nodup) :
    (initMap ps).length = ps.length := by
  have h := congrArg List.length (initMap_keys ps hnd)
  simpa using h

theorem calculateStandings_length (ps : List Player) (ms : List MatchWithPlayers)
    (hnd : (ps.map Player.id).Nodup) :
    (calculateStandings ps ms).length = ps.length := by
  rw [calculateStandings_eq, assignRanksFrom_length, (sortCmp_perm _ _).length_eq,
    prepStandings_fst, List.length_map, List.length_map,
    foldl_processMatch_length, initMap_length ps hnd]

theorem calculateStandings_ids_perm (ps : List Player) (ms : List MatchWithPlayers)
    (hnd : (ps.map Player.id).Nodup) :
    ((calculateStandings ps ms).map (fun s => s.player.id)).Perm (ps.map Player.id) := by
  rw [calculateStandings_eq,
    assignRanksFrom_map_field (fun s => s.player.id) (fun _ _ => rfl)]
  refine ((sortCmp_perm _ _).map _).trans ?_
  rw [prepStandings_fst, List.map_map, List.map_map]
  have hids : ((((leagueFilter ms).foldl processMatch (initMap ps, [])).1).map
      (fun e => e.2.player.id)) =
      (((leagueFilter ms).foldl processMatch (initMap ps, [])).1).map Prod.fst :=
    List.map_congr_left
      (fun e he => mapIdsOk_foldl_processMatch _ _ (mapIdsOk_initMap ps) e he)
  have : ((((leagueFilter ms).foldl processMatch (initMap ps, [])).1).map
      ((((fun s => s.player.id)) ∘ fun s =>
        { s with setDiff := s.setsWon - s.setsLost
                 pointDiff := s.pointsScored - s.pointsConceded }) ∘ fun e => e.2)) =
      (((leagueFilter ms).foldl processMatch (initMap ps, [])).1).map
        (fun e => e.2.player.id) := rfl
  rw [this, hids, foldl_processMatch_keys, initMap_keys ps hnd]

/-- The list `i, i+1, ..., i+n-1` of assigned ranks. -/
def rankList (i : Int) : Nat → List Int
  | 0 => []
  | n + 1 => i :: rankList (i + 1) n

theorem assignRanksFrom_map_rank (i : Int) (l : List PlayerStanding) :
    (assignRanksFrom i l).map (fun s => s.rank) = rankList i l.length := by
  induction l generalizing i with
  | nil => rfl
  | cons s t ih => simp [assignRanksFrom, rankList, ih]

theorem rankList_eq_range (i : Int) (n : Nat) :
    rankList i n = (List.range n).map (fun j : Nat => i + (j : Int)) := by
  induction n generalizing i with
  | zero => simp [rankList]
  | succ n ih =>
    rw [List.range_succ_eq_map, List.map_cons, List.map_map]
    show i :: rankList (i + 1) n = (i + ((0 : Nat) : Int)) :: _
    refine List.cons_eq_cons.mpr ⟨by norm_num, ?_⟩
    rw [ih (i + 1)]
    apply List.map_congr_left
    intro j _
    simp only [Function.comp_apply]
    push_cast
    ring

theorem calculateStandings_map_rank (ps : List Player) (ms : List MatchWithPlayers)
    (hnd : (ps.map Player.id).Nodup) :
    (calculateStandings ps ms).map (fun s => s.rank)
      = (List.range ps.length).map (fun j : Nat => (j : Int) + 1) := by
  rw [calculateStandings_eq, assignRanksFrom_map_rank, (sortCmp_perm _ _).length_eq,
    prepStandings_fst, List.length_map, List.length_map,
    foldl_processMatch_length, initMap_length ps hnd, rankList_eq_range]
  apply List.map_congr_left
  intro j _
  ring

/-- C7 (amended): provided player ids are pairwise distinct, the standings
have exactly one entry per input player — the output length equals the
player count and the output player ids are a permutation of the input ids —
and the ranks in output order are exactly 1..N.  (As frozen the claim also
covers duplicate-id player lists, where the id-keyed map collapses entries:
see the counterexample.) -/
theorem claim_C7_amended (ps : List Player) (ms : List MatchWithPlayers)
    (hnd : (ps.map Player.id).Nodup) :
    (calculateStandings ps ms).length = ps.length ∧
    ((calculateStandings ps ms).map (fun s => s.player.id)).Perm (ps.map Player.id) ∧
    (calculateStandings ps ms).map (fun s => s.rank)
      = (List.range ps.length).map (fun j : Nat => (j : Int) + 1) :=
  ⟨calculateStandings_length ps ms hnd, calculateStandings_ids_perm ps ms hnd,
    calculateStandings_map_rank ps ms hnd⟩

/-- Witness for C7 at a concrete three-player input. -/
theorem claim_C7_witness :
    ((fix1ps.map Player.id).Nodup) ∧
    ((calculateStandings fix1ps fix1ms).length = fix1ps.length ∧
      (calculateStandings fix1ps fix1ms).map (fun s => s.rank)
        = (List.range fix1ps.length).map (fun j : Nat => (j : Int) + 1)) :=
  ⟨by decide,
    (claim_C7_amended fix1ps fix1ms (by decide)).1,
    (claim_C7_amended fix1ps fix1ms (by decide)).2.2⟩

/-- C7 as frozen is false for duplicate player ids: two players sharing an id
collapse to a single standings entry, so the output length is 1, not 2. -/
theorem claim_C7_counterexample :
    ¬ ((calculateStandings [fixP 1 .one, fixP 1 .two] []).length = 2) := by
  decide

/-! ### Zero-match players (C9) -/

theorem mapGet_processSet_other (p1 p2 : Nat) (m : SMap) (s : Int × Int) (k : Nat)
    (hk1 : k ≠ p1) (hk2 : k ≠ p2) : mapGet (processSet p1 p2 m s) k = mapGet m k := by
  by_cases hgt : s.1 > s.2 <;>
    simp only [processSet, hgt, ite_true, ite_false,
      mapGet_mapUpdate_ne _ _ hk1, mapGet_mapUpdate_ne _ _ hk2]

theorem mapGet_processSet_foldl_other (p1 p2 : Nat) (m : SMap) (sets : List (Int × Int))
    (k : Nat) (hk1 : k ≠ p1) (hk2 : k ≠ p2) :
    mapGet (sets.foldl (processSet p1 p2) m) k = mapGet m k := by
  induction sets generalizing m with
  | nil => rfl
  | cons s t ih => rw [List.foldl_cons, ih, mapGet_processSet_other _ _ _ _ _ hk1 hk2]

theorem mapGet_processMatch_other (st : SMap × H2H) (m : MatchWithPlayers) (k : Nat)
    (hk1 : k ≠ m.player1_id) (hk2 : k ≠ m.player2_id) :
    mapGet (processMatch st m).1 k = mapGet st.1 k := by
  rcases h1 : mapGet st.1 m.player1_id with _ | v1 <;>
    rcases h2 : mapGet st.1 m.player2_id with _ | v2 <;>
    simp only [processMatch, h1, h2]
  by_cases hw : m.winner_id = some m.player1_id <;>
    simp only [hw, ite_true, ite_false,
      mapGet_mapUpdate_ne _ _ hk1, mapGet_mapUpdate_ne _ _ hk2,
      mapGet_processSet_foldl_other _ _ _ _ _ hk1 hk2]

theorem mapGet_foldl_processMatch_other (l : List MatchWithPlayers) (st : SMap × H2H)
    (k : Nat) (h : ∀ mm ∈ l, k ≠ mm.player1_id ∧ k ≠ mm.player2_id) :
    mapGet (l.foldl processMatch st).1 k = mapGet st.1 k := by
  induction l generalizing st with
  | nil => rfl
  | cons m t ih =>
    rw [List.foldl_cons, ih _ (fun mm hmm => h mm (List.mem_cons_of_mem _ hmm)),
      mapGet_processMatch_other _ _ _ (h m (List.mem_cons_self _ _)).1
        (h m (List.mem_cons_self _ _)).2]

theorem mapGet_initMap_go_untouched (ps : List Player) (k : Nat)
    (h : ∀ q ∈ ps, q.id ≠ k) :
    ∀ acc : SMap, mapGet (ps.foldl (fun m p => mapSet m p.id (initStanding p)) acc) k
      = mapGet acc k := by
  induction ps with
  | nil => intro acc; rfl
  | cons p t ih =>
    intro acc
    rw [List.foldl_cons, ih (fun q hq => h q (List.mem_cons_of_mem _ hq)),
      mapGet_mapSet_ne _ _ (Ne.symm (h p (List.mem_cons_self _ _)))]

theorem mapGet_initMap_of_mem (ps : List Player) (p : Player)
    (hnd : (ps.map Player.id).Nodup) (hp : p ∈ ps) :
    mapGet (initMap ps) p.id = some (initStanding p) := by
  suffices hgo : ∀ acc : SMap,
      mapGet (ps.foldl (fun m q => mapSet m q.id (initStanding q)) acc) p.id
        = some (initStanding p) by
    exact hgo []
  induction ps with
  | nil => exact absurd hp (List.not_mem_nil p)
  | cons q t ih =>
    intro acc
    simp only [List.map_cons, List.nodup_cons] at hnd
    rcases List.mem_cons.mp hp with hpq | hpt
    · subst hpq
      rw [List.foldl_cons,
        mapGet_initMap_go_untouched t p.id
          (fun r hr heq => hnd.1 (heq ▸ List.mem_map.mpr ⟨r, hr, rfl⟩)),
        mapGet_mapSet_self]
    · have hqp : q.id ≠ p.id := by
        intro heq
        exact hnd.1 (heq ▸ List.mem_map.mpr ⟨p, hpt, rfl⟩)
      rw [List.foldl_cons]
      exact ih hnd.2 hpt _

theorem compare_le_points (h2h : H2H) (a b : PlayerStanding)
    (h : compareStandings h2h a b ≤ 0) : b.points ≤ a.points := by
  simp only [compareStandings] at h
  split_ifs at h <;> omega

theorem adjSorted_points_pairwise (c : PlayerStanding → PlayerStanding → Int)
    (hpts : ∀ a b, c a b ≤ 0 → b.points ≤ a.points) (l : List PlayerStanding)
    (h : adjSorted c l) : List.Pairwise (fun a b => b.points ≤ a.points) l := by
  induction l with
  | nil => exact List.Pairwise.nil
  | cons a t ih =>
    cases t with
    | nil => exact List.pairwise_singleton _ _
    | cons u v =>
      obtain ⟨hau, htail⟩ := h
      have hpw := ih htail
      refine List.Pairwise.cons ?_ hpw
      intro b hb
      rcases List.mem_cons.mp hb with hbu | hbv
      · subst hbu
        exact hpts _ _ hau
      · have h1 : b.points ≤ u.points :=
          (List.pairwise_cons.mp hpw).1 b hbv
        exact le_trans h1 (hpts _ _ hau)

theorem calculateStandings_adjSorted (ps : List Player) (ms : List MatchWithPlayers) :
    adjSorted (compareStandings (prepStandings ps ms).2) (calculateStandings ps ms) := by
  rw [calculateStandings_eq]
  exact adjSorted_assignRanksFrom _
    (compareStandings_rank_irrel ((prepStandings ps ms).2)) 1 _
    (adjSorted_sortCmp _ (compareStandings_antisymm _) _)

theorem calculateStandings_getElem? (ps : List Player) (ms : List MatchWithPlayers)
    (j : Nat) :
    (calculateStandings ps ms)[j]? =
      ((sortCmp (compareStandings (prepStandings ps ms).2) (prepStandings ps ms).1)[j]?).map
        (fun s => { s with rank := 1 + (j : Int) }) := by
  rw [calculateStandings_eq, assignRanksFrom_getElem?]

/-- C9 (amended): with pairwise-distinct player ids, a player appearing in no
completed league match keeps a zeroed standing (points 0, setDiff 0,
pointsScored 0) and ranks strictly below every player with positive points
(in particular below every player with at least one win).  (As frozen —
"below every player with at least one completed league match" — the claim
fails: a zero-match player outranks a winless player with negative setDiff;
see the counterexample.) -/
theorem claim_C9_amended (ps : List Player) (ms : List MatchWithPlayers) (p : Player)
    (hnd : (ps.map Player.id).Nodup) (hp : p ∈ ps)
    (hz : ∀ mm ∈ ms, mm.phase = Phase.league → mm.status = Status.completed →
      mm.player1_id ≠ p.id ∧ mm.player2_id ≠ p.id) :
    (∃ s ∈ calculateStandings ps ms, s.player.id = p.id) ∧
    (∀ s ∈ calculateStandings ps ms, s.player.id = p.id →
      s.points = 0 ∧ s.setDiff = 0 ∧ s.pointsScored = 0 ∧
      ∀ t ∈ calculateStandings ps ms, 0 < t.points → t.rank < s.rank) := by
  have hzf : ∀ mm ∈ leagueFilter ms, p.id ≠ mm.player1_id ∧ p.id ≠ mm.player2_id := by
    intro mm hmm
    rw [leagueFilter, List.mem_filter] at hmm
    obtain ⟨hmem, hcond⟩ := hmm
    rw [Bool.and_eq_true, decide_eq_true_eq, decide_eq_true_eq] at hcond
    obtain ⟨hn1, hn2⟩ := hz mm hmem hcond.1 hcond.2
    exact ⟨Ne.symm hn1, Ne.symm hn2⟩
  have hA : mapGet ((leagueFilter ms).foldl processMatch (initMap ps, [])).1 p.id
      = some (initStanding p) := by
    rw [mapGet_foldl_processMatch_other _ _ _ hzf]
    exact mapGet_initMap_of_mem ps p hnd hp
  have hndk : ((((leagueFilter ms).foldl processMatch (initMap ps, [])).1).map
      Prod.fst).Nodup := by
    rw [foldl_processMatch_keys, initMap_keys ps hnd]
    exact hnd
  constructor
  · have hmem_entry : (p.id, initStanding p)
        ∈ ((leagueFilter ms).foldl processMatch (initMap ps, [])).1 := mapGet_mem hA
    have hpre_mem : diffFields (initStanding p) ∈ (prepStandings ps ms).1 := by
      rw [prepStandings_fst_diffFields]
      exact List.mem_map.mpr ⟨initStanding p,
        List.mem_map.mpr ⟨(p.id, initStanding p), hmem_entry, rfl⟩, rfl⟩
    have hsrt_mem : diffFields (initStanding p)
        ∈ sortCmp (compareStandings (prepStandings ps ms).2) (prepStandings ps ms).1 :=
      ((sortCmp_perm _ _).mem_iff).mpr hpre_mem
    obtain ⟨j, hj⟩ := List.mem_iff_getElem?.mp hsrt_mem
    have hout_j : (calculateStandings ps ms)[j]? = some
        { diffFields (initStanding p) with rank := 1 + (j : Int) } := by
      rw [calculateStandings_getElem?, hj]
      rfl
    exact ⟨_, List.getElem?_mem hout_j, rfl⟩
  · intro s hs hsid
    obtain ⟨js, hjs⟩ := List.mem_iff_getElem?.mp hs
    have hjs2 := hjs
    rw [calculateStandings_getElem?] at hjs2
    obtain ⟨s0, hs0get, hs0eq⟩ := Option.map_eq_some'.mp hjs2
    have hs0mem : s0 ∈ (prepStandings ps ms).1 :=
      ((sortCmp_perm _ _).mem_iff).mp (List.getElem?_mem hs0get)
    rw [prepStandings_fst_diffFields] at hs0mem
    obtain ⟨v, hv, hveq⟩ := List.mem_map.mp hs0mem
    obtain ⟨e, he, heq⟩ := List.mem_map.mp hv
    have hsplayer : s.player = s0.player := by
      rw [← hs0eq]
    have hs0player : s0.player = v.player := by
      rw [← hveq]
      rfl
    have heid : e.2.player.id = e.1 :=
      mapIdsOk_foldl_processMatch _ _ (mapIdsOk_initMap ps) e he
    have he1 : e.1 = p.id := by
      rw [← heid, heq, ← hs0player, ← hsplayer, hsid]
    have hgete : mapGet ((leagueFilter ms).foldl processMatch (initMap ps, [])).1 e.1
        = some e.2 := mapGet_of_mem_nodup hndk he
    rw [he1, hA] at hgete
    have hv_init : v = initStanding p := by
      rw [← heq]
      exact (Option.some.inj hgete).symm
    have hs0_val : s0 = diffFields (initStanding p) := by
      rw [← hveq, hv_init]
    have hspts : s.points = 0 := by
      rw [← hs0eq, hs0_val]
      rfl
    have hssd : s.setDiff = 0 := by
      rw [← hs0eq, hs0_val]
      show (0 : Int) - 0 = 0
      norm_num
    have hsps : s.pointsScored = 0 := by
      rw [← hs0eq, hs0_val]
      rfl

    have hsrank : s.rank = 1 + (js : Int) := by
      rw [← hs0eq]
    refine ⟨hspts, hssd, hsps, ?_⟩
    intro t ht htpts
    obtain ⟨jt, hjt⟩ := List.mem_iff_getElem?.mp ht
    have hjt2 := hjt
    rw [calculateStandings_getElem?] at hjt2
    obtain ⟨t0, ht0get, ht0eq⟩ := Option.map_eq_some'.mp hjt2
    have htrank : t.rank = 1 + (jt : Int) := by
      rw [← ht0eq]
    have hpw : (calculateStandings ps ms).Pairwise (fun a b => b.points ≤ a.points) :=
      adjSorted_points_pairwise _ (fun a b hab => compare_le_points _ _ _ hab) _
        (calculateStandings_adjSorted ps ms)
    have hjslt : js < (calculateStandings ps ms).length :=
      (List.getElem?_eq_some.mp hjs).1
    have hjtlt : jt < (calculateStandings ps ms).length :=
      (List.getElem?_eq_some.mp hjt).1
    have hgs : (calculateStandings ps ms).get ⟨js, hjslt⟩ = s := by
      have := List.getElem?_eq_getElem hjslt
      rw [hjs] at this
      exact (Option.some.inj this).symm
    have hgt2 : (calculateStandings ps ms).get ⟨jt, hjtlt⟩ = t := by
      have := List.getElem?_eq_getElem hjtlt
      rw [hjt] at this
      exact (Option.some.inj this).symm
    have hjtjs : jt < js := by
      rcases Nat.lt_trichotomy jt js with h | h | h
      · exact h
      · exfalso
        have : t = s := by
          rw [← hgt2, ← hgs]
          congr 1
          exact Fin.ext h
        rw [this, hspts] at htpts
        exact lt_irrefl 0 htpts
      · exfalso
        have hle : ((calculateStandings ps ms).get ⟨jt, hjtlt⟩).points ≤
            ((calculateStandings ps ms).get ⟨js, hjslt⟩).points :=
          List.pairwise_iff_get.mp hpw ⟨js, hjslt⟩ ⟨jt, hjtlt⟩ h
        rw [hgs, hgt2, hspts] at hle
        exact absurd (lt_of_lt_of_le htpts hle) (lt_irrefl 0)
    rw [hsrank, htrank]
    omega

/-- Fixture for the C9 counterexample and witness: player 3 plays no match,
player 1 beats player 2. -/
def fix9ps : List Player := [fixP 1 .four, fixP 2 .four, fixP 3 .four]

/-- The single completed league match of the C9 fixture. -/
def fix9ms : List MatchWithPlayers :=
  [fixLeague 1 1 2 1 11 0 11 0 (fixP 1 .four) (fixP 2 .four)]

/-- Witness for C9: in the fixture, player 3 (zero matches) appears in the
output with a zeroed standing. -/
theorem claim_C9_witness :
    ((fix9ps.map Player.id).Nodup ∧ fixP 3 .four ∈ fix9ps ∧
      (∀ mm ∈ fix9ms, mm.phase = Phase.league → mm.status = Status.completed →
        mm.player1_id ≠ (fixP 3 .four).id ∧ mm.player2_id ≠ (fixP 3 .four).id)) ∧
    (∃ s ∈ calculateStandings fix9ps fix9ms, s.player.id = (fixP 3 .four).id) :=
  ⟨⟨by decide, by decide, by decide⟩,
    (claim_C9_amended fix9ps fix9ms (fixP 3 .four) (by decide) (by decide) (by decide)).1⟩

/-- C9 as frozen is false: in the fixture, the zero-match player 3 ranks 2nd,
above player 2 who played (and lost) a match — so a zero-match player is not
ranked below every player with at least one completed league match. -/
theorem claim_C9_counterexample :
    ¬ (∀ s ∈ calculateStandings fix9ps fix9ms, s.matchesPlayed = 0 →
        ∀ t ∈ calculateStandings fix9ps fix9ms, 0 < t.matchesPlayed → t.rank < s.rank) := by
  decide

/-! ### Bracket engine lemmas -/

/-- The next-phase matches of a progression in the stored match list. -/
def nextPhaseMatchesOf (M : List Match) (p : KnockoutProgression) : List Match :=
  M.filter (fun m => decide (m.phase = p.nextPhase))

/-- The stale scheduled matches a fired progression deletes. -/
def staleOf (M : List Match) (p : KnockoutProgression) (E : List Matchup) : List Match :=
  ((nextPhaseMatchesOf M p).filter (fun m => decide (m.status = Status.scheduled))).filter
    (fun ex => ¬ E.any (fun e => pairEqME ex e))

/-- The expected matchups a fired progression inserts. -/
def missingOf (M : List Match) (p : KnockoutProgression) (E : List Matchup) : List Matchup :=
  E.filter (fun e => ¬ (nextPhaseMatchesOf M p).any (fun ex => pairEqME ex e))

/-- The insert row built from an expected matchup. -/
def mkInsert (p : KnockoutProgression) (mm : Matchup) : InsertRec :=
  { player1_id := mm.player1_id
    player2_id := mm.player2_id
    phase := p.nextPhase
    status := Status.scheduled
    knockout_position := mm.knockout_position }

theorem getKnockoutRoundUpdates_eq (M : List Match) (S : List PlayerStanding) :
    getKnockoutRoundUpdates M S =
      ((progressionOps M S ⟨.knockout_r1, .knockout_r2, 4⟩).1 ++
        (progressionOps M S ⟨.knockout_r2, .semifinal, 2⟩).1 ++
        (progressionOps M S ⟨.semifinal, .final, 2⟩).1,
       (progressionOps M S ⟨.knockout_r1, .knockout_r2, 4⟩).2 ++
        (progressionOps M S ⟨.knockout_r2, .semifinal, 2⟩).2 ++
        (progressionOps M S ⟨.semifinal, .final, 2⟩).2) := by
  simp [getKnockoutRoundUpdates, KNOCKOUT_PROGRESSION, List.append_assoc]

theorem progressionOps_of_not_fires (M : List Match) (S : List PlayerStanding)
    (p : KnockoutProgression) (h : firesb M S p = false) :
    progressionOps M S p = ([], []) := by
  by_cases h1 : (M.filter (fun m => decide (m.phase = p.currentPhase))).length
      = p.expectedMatches
  · by_cases h2 : (M.filter (fun m => decide (m.phase = p.currentPhase))).all
        (fun m => decide (m.status = Status.completed)) = true
    · by_cases h3 : ((M.filter (fun m => decide (m.phase = p.currentPhase))).filterMap
          (fun m => m.winner_id)).length = p.expectedMatches
      · cases h4 : generateNextRoundMatchups p.nextPhase
            ((M.filter (fun m => decide (m.phase = p.currentPhase))).filterMap
              (fun m => m.winner_id)) S M with
        | none => simp [progressionOps, h1, h2, h3, h4]
        | some E =>
          exfalso
          rw [firesb] at h
          simp [h1, h2, h3, h4] at h
      · simp [progressionOps, h1, h2, h3]
    · simp [progressionOps, h1, h2]
  · simp [progressionOps, h1]

theorem firesb_parts (M : List Match) (S : List PlayerStanding) (p : KnockoutProgression)
    (h : firesb M S p = true) :
    (M.filter (fun m => decide (m.phase = p.currentPhase))).length = p.expectedMatches ∧
    (M.filter (fun m => decide (m.phase = p.currentPhase))).all
      (fun m => decide (m.status = Status.completed)) = true ∧
    ((M.filter (fun m => decide (m.phase = p.currentPhase))).filterMap
      (fun m => m.winner_id)).length = p.expectedMatches ∧
    (expectedOf M S p).isSome = true := by
  rw [firesb] at h
  simp only [Bool.and_eq_true, decide_eq_true_eq] at h
  exact ⟨h.1.1.1, h.1.1.2, h.1.2, h.2⟩

theorem progressionOps_of_fires (M : List Match) (S : List PlayerStanding)
    (p : KnockoutProgression) (h : firesb M S p = true) (E : List Matchup)
    (hE : expectedOf M S p = some E) :
    progressionOps M S p
      = ((missingOf M p E).map (mkInsert p), (staleOf M p E).map (fun m => m.id)) := by
  obtain ⟨h1, h2, h3, -⟩ := firesb_parts M S p h
  have hE2 : generateNextRoundMatchups p.nextPhase
      ((M.filter (fun m => decide (m.phase = p.currentPhase))).filterMap
        (fun m => m.winner_id)) S M = some E := hE
  simp [progressionOps, h1, h2, h3, hE2, nextPhaseMatchesOf, staleOf, missingOf, mkInsert]

theorem mem_attachIds {base : Nat} {l : List InsertRec} {ex : Match}
    (h : ex ∈ attachIds base l) : ∃ n i, i ∈ l ∧ ex = insertToMatch n i := by
  induction l generalizing base with
  | nil => simp [attachIds] at h
  | cons i t ih =>
    rcases List.mem_cons.mp h with h1 | h1
    · exact ⟨base, i, List.mem_cons_self _ _, h1⟩
    · obtain ⟨n, i', hi', he⟩ := ih h1
      exact ⟨n, i', List.mem_cons_of_mem _ hi', he⟩

theorem mem_attachIds_of_mem {base : Nat} {l : List InsertRec} {i : InsertRec}
    (h : i ∈ l) : ∃ n, insertToMatch n i ∈ attachIds base l := by
  induction l generalizing base with
  | nil => simp at h
  | cons j t ih =>
    rcases List.mem_cons.mp h with h1 | h1
    · exact ⟨base, by rw [h1]; exact List.mem_cons_self _ _⟩
    · obtain ⟨n, hn⟩ := ih h1
      exact ⟨n, List.mem_cons_of_mem _ hn⟩

theorem nextPhase_inj : ∀ p ∈ KNOCKOUT_PROGRESSION, ∀ q ∈ KNOCKOUT_PROGRESSION,
    p.nextPhase = q.nextPhase → p = q := by
  decide

theorem delete_of_component (M : List Match) (S : List PlayerStanding)
    (q : KnockoutProgression) (x : Nat) (hx : x ∈ (progressionOps M S q).2) :
    ∃ E, firesb M S q = true ∧ expectedOf M S q = some E ∧
      ∃ m ∈ M, m.id = x ∧ m.phase = q.nextPhase ∧ m.status = Status.scheduled ∧
        ∀ e ∈ E, pairEqME m e = false := by
  by_cases hf : firesb M S q = true
  · obtain ⟨-, -, -, hsome⟩ := firesb_parts M S q hf
    obtain ⟨E, hE⟩ := Option.isSome_iff_exists.mp hsome
    refine ⟨E, hf, hE, ?_⟩
    rw [progressionOps_of_fires M S q hf E hE] at hx
    simp only at hx
    obtain ⟨m, hm, hmid⟩ := List.mem_map.mp hx
    have hm2 := hm
    rw [staleOf, List.mem_filter] at hm2
    obtain ⟨hm3, hany⟩ := hm2
    rw [List.mem_filter] at hm3
    obtain ⟨hm4, hsched⟩ := hm3
    rw [nextPhaseMatchesOf, List.mem_filter] at hm4
    refine ⟨m, hm4.1, hmid, by simpa using hm4.2, by simpa using hsched, ?_⟩
    intro e he
    rw [decide_eq_true_eq] at hany
    by_contra hcontra
    rw [Bool.not_eq_false] at hcontra
    exact hany (List.any_eq_true.mpr ⟨e, he, hcontra⟩)
  · rw [Bool.not_eq_true] at hf
    rw [progressionOps_of_not_fires M S q hf] at hx
    simp at hx

theorem insert_of_component (M : List Match) (S : List PlayerStanding)
    (q : KnockoutProgression) (i : InsertRec) (hi : i ∈ (progressionOps M S q).1) :
    ∃ E, firesb M S q = true ∧ expectedOf M S q = some E ∧
      ∃ e ∈ E, i = mkInsert q e ∧
        ∀ ex ∈ M, ex.phase = q.nextPhase → pairEqME ex e = false := by
  by_cases hf : firesb M S q = true
  · obtain ⟨-, -, -, hsome⟩ := firesb_parts M S q hf
    obtain ⟨E, hE⟩ := Option.isSome_iff_exists.mp hsome
    refine ⟨E, hf, hE, ?_⟩
    rw [progressionOps_of_fires M S q hf E hE] at hi
    simp only at hi
    obtain ⟨e, he, hieq⟩ := List.mem_map.mp hi
    have he2 := he
    rw [missingOf, List.mem_filter] at he2
    obtain ⟨heE, hany⟩ := he2
    refine ⟨e, heE, hieq.symm, ?_⟩
    intro ex hex hphase
    rw [decide_eq_true_eq] at hany
    by_contra hcontra
    rw [Bool.not_eq_false] at hcontra
    refine hany (List.any_eq_true.mpr ⟨ex, ?_, hcontra⟩)
    rw [nextPhaseMatchesOf, List.mem_filter]
    exact ⟨hex, by simpa using hphase⟩
  · rw [Bool.not_eq_true] at hf
    rw [progressionOps_of_not_fires M S q hf] at hi
    simp at hi

theorem deletes_sound (M : List Match) (S : List PlayerStanding) (x : Nat)
    (hx : x ∈ (getKnockoutRoundUpdates M S).2) :
    ∃ q ∈ KNOCKOUT_PROGRESSION, ∃ E, firesb M S q = true ∧ expectedOf M S q = some E ∧
      ∃ m ∈ M, m.id = x ∧ m.phase = q.nextPhase ∧ m.status = Status.scheduled ∧
        ∀ e ∈ E, pairEqME m e = false := by
  rw [getKnockoutRoundUpdates_eq] at hx
  simp only [List.mem_append] at hx
  rcases hx with (hx | hx) | hx
  · exact ⟨_, by simp [KNOCKOUT_PROGRESSION], delete_of_component M S _ x hx⟩
  · exact ⟨_, by simp [KNOCKOUT_PROGRESSION], delete_of_component M S _ x hx⟩
  · exact ⟨_, by simp [KNOCKOUT_PROGRESSION], delete_of_component M S _ x hx⟩

theorem inserts_sound (M : List Match) (S : List PlayerStanding) (i : InsertRec)
    (hi : i ∈ (getKnockoutRoundUpdates M S).1) :
    ∃ q ∈ KNOCKOUT_PROGRESSION, ∃ E, firesb M S q = true ∧ expectedOf M S q = some E ∧
      ∃ e ∈ E, i = mkInsert q e ∧
        ∀ ex ∈ M, ex.phase = q.nextPhase → pairEqME ex e = false := by
  rw [getKnockoutRoundUpdates_eq] at hi
  simp only [List.mem_append] at hi
  rcases hi with (hi | hi) | hi
  · exact ⟨_, by simp [KNOCKOUT_PROGRESSION], insert_of_component M S _ i hi⟩
  · exact ⟨_, by simp [KNOCKOUT_PROGRESSION], insert_of_component M S _ i hi⟩
  · exact ⟨_, by simp [KNOCKOUT_PROGRESSION], insert_of_component M S _ i hi⟩

theorem component_subset_deletes (M : List Match) (S : List PlayerStanding)
    (q : KnockoutProgression) (hq : q ∈ KNOCKOUT_PROGRESSION) (x : Nat)
    (hx : x ∈ (progressionOps M S q).2) : x ∈ (getKnockoutRoundUpdates M S).2 := by
  rw [getKnockoutRoundUpdates_eq]
  simp only [List.mem_append]
  simp only [KNOCKOUT_PROGRESSION, List.mem_cons, List.not_mem_nil, or_false] at hq
  rcases hq with h | h | h <;> subst h
  · exact Or.inl (Or.inl hx)
  · exact Or.inl (Or.inr hx)
  · exact Or.inr hx

theorem component_subset_inserts (M : List Match) (S : List PlayerStanding)
    (q : KnockoutProgression) (hq : q ∈ KNOCKOUT_PROGRESSION) (i : InsertRec)
    (hi : i ∈ (progressionOps M S q).1) : i ∈ (getKnockoutRoundUpdates M S).1 := by
  rw [getKnockoutRoundUpdates_eq]
  simp only [List.mem_append]
  simp only [KNOCKOUT_PROGRESSION, List.mem_cons, List.not_mem_nil, or_false] at hq
  rcases hq with h | h | h <;> subst h
  · exact Or.inl (Or.inl hi)
  · exact Or.inl (Or.inr hi)
  · exact Or.inr hi

/-! ### C2 -/

/-- The four completed round-1 matches, winners 3, 4, 5, 6 in slots 1–4. -/
def fixR1done : List Match :=
  [ fixKO 1 3 10 .knockout_r1 .completed (some 3) (some 1)
  , fixKO 2 4 9 .knockout_r1 .completed (some 4) (some 2)
  , fixKO 3 5 8 .knockout_r1 .completed (some 5) (some 3)
  , fixKO 4 6 7 .knockout_r1 .completed (some 6) (some 4) ]

/-- C2 (confirmed): the round-2 matchups are derived by the fixed bracket
path — winner of slot 1 vs winner of slot 2 at position 1, winner of slot 3
vs winner of slot 4 at position 2 — for every standings list (so never
reseeded by rank); and on the concrete ten-player example with round-1
winners 3, 4, 5, 6 the engine returns exactly the two scheduled inserts
{3 vs 4} and {5 vs 6} and no deletes. -/
theorem claim_C2 (S : List PlayerStanding) (winners : List Nat) (M : List Match)
    (m1 m2 m3 m4 : Match) (w1 w2 w3 w4 : Nat)
    (hf1 : (M.filter (fun m => decide (m.phase = Phase.knockout_r1))).find?
        (fun m => decide (m.knockout_position = some 1)) = some m1)
    (hf2 : (M.filter (fun m => decide (m.phase = Phase.knockout_r1))).find?
        (fun m => decide (m.knockout_position = some 2)) = some m2)
    (hf3 : (M.filter (fun m => decide (m.phase = Phase.knockout_r1))).find?
        (fun m => decide (m.knockout_position = some 3)) = some m3)
    (hf4 : (M.filter (fun m => decide (m.phase = Phase.knockout_r1))).find?
        (fun m => decide (m.knockout_position = some 4)) = some m4)
    (hw1 : m1.winner_id = some w1) (hw2 : m2.winner_id = some w2)
    (hw3 : m3.winner_id = some w3) (hw4 : m4.winner_id = some w4) :
    generateNextRoundMatchups Phase.knockout_r2 winners S M =
      some [⟨w1, w2, some 1⟩, ⟨w3, w4, some 2⟩] ∧
    getKnockoutRoundUpdates fixR1done fixStandings10 =
      ([⟨3, 4, .knockout_r2, .scheduled, some 1⟩, ⟨5, 6, .knockout_r2, .scheduled, some 2⟩],
       []) := by
  constructor
  · simp [generateNextRoundMatchups, hf1, hf2, hf3, hf4, hw1, hw2, hw3, hw4]
  · decide

/-- Witness for C2: the hypotheses hold on the completed round-1 fixture, and
the derived matchups are {3 vs 4} and {5 vs 6}. -/
theorem claim_C2_witness :
    ((fixR1done.filter (fun m => decide (m.phase = Phase.knockout_r1))).find?
        (fun m => decide (m.knockout_position = some 1))
        = some (fixKO 1 3 10 .knockout_r1 .completed (some 3) (some 1)) ∧
     (fixKO 1 3 10 .knockout_r1 .completed (some 3) (some 1)).winner_id = some 3) ∧
    generateNextRoundMatchups Phase.knockout_r2 [] fixStandings10 fixR1done =
      some [⟨3, 4, some 1⟩, ⟨5, 6, some 2⟩] :=
  ⟨⟨by decide, by decide⟩,
    (claim_C2 fixStandings10 [] fixR1done
      (fixKO 1 3 10 .knockout_r1 .completed (some 3) (some 1))
      (fixKO 2 4 9 .knockout_r1 .completed (some 4) (some 2))
      (fixKO 3 5 8 .knockout_r1 .completed (some 5) (some 3))
      (fixKO 4 6 7 .knockout_r1 .completed (some 6) (some 4))
      3 4 5 6 (by decide) (by decide) (by decide) (by decide)
      (by decide) (by decide) (by decide) (by decide)).1⟩

/-! ### C6 -/

/-- C6 (confirmed): the engine is total and evaluates each phase transition
independently — its result is the concatenation of the three progressions'
operations — and a transition whose inputs are deficient (wrong match count,
a not-completed match, a missing winner, a failed matchup derivation, a
missing bracket-slot match, or fewer than two standings where a bye is
required) is skipped, contributing no operations, while the other
transitions still contribute theirs. -/
theorem claim_C6 :
    (∀ (M : List Match) (S : List PlayerStanding),
      getKnockoutRoundUpdates M S =
        ((progressionOps M S ⟨.knockout_r1, .knockout_r2, 4⟩).1 ++
          (progressionOps M S ⟨.knockout_r2, .semifinal, 2⟩).1 ++
          (progressionOps M S ⟨.semifinal, .final, 2⟩).1,
         (progressionOps M S ⟨.knockout_r1, .knockout_r2, 4⟩).2 ++
          (progressionOps M S ⟨.knockout_r2, .semifinal, 2⟩).2 ++
          (progressionOps M S ⟨.semifinal, .final, 2⟩).2)) ∧
    (∀ (M : List Match) (S : List PlayerStanding) (p : KnockoutProgression),
      (M.filter (fun m => decide (m.phase = p.currentPhase))).length ≠ p.expectedMatches →
      progressionOps M S p = ([], [])) ∧
    (∀ (M : List Match) (S : List PlayerStanding) (p : KnockoutProgression),
      ((M.filter (fun m => decide (m.phase = p.currentPhase))).all
        (fun m => decide (m.status = Status.completed))) = false →
      progressionOps M S p = ([], [])) ∧
    (∀ (M : List Match) (S : List PlayerStanding) (p : KnockoutProgression),
      ((M.filter (fun m => decide (m.phase = p.currentPhase))).filterMap
        (fun m => m.winner_id)).length ≠ p.expectedMatches →
      progressionOps M S p = ([], [])) ∧
    (∀ (M : List Match) (S : List PlayerStanding) (p : KnockoutProgression),
      generateNextRoundMatchups p.nextPhase
        ((M.filter (fun m => decide (m.phase = p.currentPhase))).filterMap
          (fun m => m.winner_id)) S M = none →
      progressionOps M S p = ([], [])) ∧
    (∀ (winners : List Nat) (S : List PlayerStanding) (M : List Match), S.length < 2 →
      generateNextRoundMatchups Phase.semifinal winners S M = none) ∧
    (∀ (winners : List Nat) (S : List PlayerStanding) (M : List Match),
      (M.filter (fun m => decide (m.phase = Phase.knockout_r1))).find?
        (fun m => decide (m.knockout_position = some 1)) = none →
      generateNextRoundMatchups Phase.knockout_r2 winners S M = none) := by
  refine ⟨getKnockoutRoundUpdates_eq, ?_, ?_, ?_, ?_, ?_, ?_⟩
  · intro M S p h1
    simp [progressionOps, h1]
  · intro M S p h2
    by_cases h1 : (M.filter (fun m => decide (m.phase = p.currentPhase))).length
        = p.expectedMatches
    · simp [progressionOps, h1, h2]
    · simp [progressionOps, h1]
  · intro M S p h3
    by_cases h1 : (M.filter (fun m => decide (m.phase = p.currentPhase))).length
        = p.expectedMatches
    · by_cases h2 : (M.filter (fun m => decide (m.phase = p.currentPhase))).all
          (fun m => decide (m.status = Status.completed)) = true
      · simp [progressionOps, h1, h2, h3]
      · simp [progressionOps, h1, h2]
    · simp [progressionOps, h1]
  · intro M S p h4
    by_cases h1 : (M.filter (fun m => decide (m.phase = p.currentPhase))).length
        = p.expectedMatches
    · by_cases h2 : (M.filter (fun m => decide (m.phase = p.currentPhase))).all
          (fun m => decide (m.status = Status.completed)) = true
      · by_cases h3 : ((M.filter (fun m => decide (m.phase = p.currentPhase))).filterMap
            (fun m => m.winner_id)).length = p.expectedMatches
        · simp [progressionOps, h1, h2, h3, h4]
        · simp [progressionOps, h1, h2, h3]
      · simp [progressionOps, h1, h2]
    · simp [progressionOps, h1]
  · intro winners S M hS
    cases S with
    | nil =>
      rcases h1 : ((M.filter (fun m => decide (m.phase = Phase.knockout_r2))).find?
          (fun m => decide (m.knockout_position = some 1))).bind
          (fun m => m.winner_id) with _ | w1 <;>
        rcases h2 : ((M.filter (fun m => decide (m.phase = Phase.knockout_r2))).find?
            (fun m => decide (m.knockout_position = some 2))).bind
            (fun m => m.winner_id) with _ | w2 <;>
        simp [generateNextRoundMatchups, h1, h2]
    | cons a T =>
      cases T with
      | nil =>
        rcases h1 : ((M.filter (fun m => decide (m.phase = Phase.knockout_r2))).find?
            (fun m => decide (m.knockout_position = some 1))).bind
            (fun m => m.winner_id) with _ | w1 <;>
          rcases h2 : ((M.filter (fun m => decide (m.phase = Phase.knockout_r2))).find?
              (fun m => decide (m.knockout_position = some 2))).bind
              (fun m => m.winner_id) with _ | w2 <;>
          simp [generateNextRoundMatchups, h1, h2]
      | cons b T2 => exact absurd hS (by simp)
  · intro winners S M hfind
    simp [generateNextRoundMatchups, hfind]

/-- Witness for C6: a three-match round 1 (wrong count) contributes no
operations. -/
theorem claim_C6_witness :
    ((((fixR1done.take 3).filter (fun m => decide (m.phase = Phase.knockout_r1))).length
      ≠ (4 : Nat)) ∧
    progressionOps (fixR1done.take 3) fixStandings10 ⟨.knockout_r1, .knockout_r2, 4⟩
      = ([], [])) :=
  ⟨by decide,
    claim_C6.2.1 (fixR1done.take 3) fixStandings10 ⟨.knockout_r1, .knockout_r2, 4⟩
      (by decide)⟩

/-! ### C3 -/

theorem filter_phase_component_self (M : List Match) (S : List PlayerStanding)
    (q : KnockoutProgression) (hf : firesb M S q = true) (E : List Matchup)
    (hE : expectedOf M S q = some E) :
    (progressionOps M S q).1.filter (fun i => decide (i.phase = q.nextPhase))
      = (missingOf M q E).map (mkInsert q) := by
  rw [progressionOps_of_fires M S q hf E hE]
  simp only
  rw [List.filter_map]
  rw [List.filter_eq_self.mpr]
  intro e _
  simp [mkInsert]

theorem filter_phase_component_ne (M : List Match) (S : List PlayerStanding)
    (qa q : KnockoutProgression) (hne : qa.nextPhase ≠ q.nextPhase) :
    (progressionOps M S qa).1.filter (fun i => decide (i.phase = q.nextPhase)) = [] := by
  rw [List.filter_eq_nil_iff]
  intro i hi
  obtain ⟨E, -, -, e, -, hieq, -⟩ := insert_of_component M S qa i hi
  subst hieq
  simp [mkInsert, hne]

/-- Fixture for the C3 scenario: round 1 completed with the slot-2 winner
edited to player 9; round 2 holds a stale scheduled match {3,4} (id 5) and a
completed match {5,6} (id 6). -/
def fixC3M : List Match :=
  [ fixKO 1 3 10 .knockout_r1 .completed (some 3) (some 1)
  , fixKO 2 4 9 .knockout_r1 .completed (some 9) (some 2)
  , fixKO 3 5 8 .knockout_r1 .completed (some 5) (some 3)
  , fixKO 4 6 7 .knockout_r1 .completed (some 6) (some 4)
  , fixKO 5 3 4 .knockout_r2 .scheduled none (some 1)
  , fixKO 6 5 6 .knockout_r2 .completed (some 5) (some 2) ]

/-- C3 (confirmed): every deleted id refers to a scheduled input match of the
fired transition's next phase matching no expected matchup; a completed
match is never deleted; a fired transition's inserts are exactly its
expected matchups not already present as an unordered pair; an expected
matchup already present (scheduled or completed) is neither re-inserted nor
has its match deleted; and on the edited-winner fixture the engine deletes
the stale scheduled round-2 match and inserts the corrected pairing while
leaving the completed round-2 match alone. -/
theorem claim_C3 (M : List Match) (S : List PlayerStanding)
    (hN : (M.map Match.id).Nodup) :
    (∀ x ∈ (getKnockoutRoundUpdates M S).2,
      ∃ m ∈ M, m.id = x ∧ m.status = Status.scheduled ∧
        ∃ q ∈ KNOCKOUT_PROGRESSION, m.phase = q.nextPhase ∧
          ∃ E, expectedOf M S q = some E ∧ ∀ e ∈ E, pairEqME m e = false) ∧
    (∀ m ∈ M, m.status = Status.completed → m.id ∉ (getKnockoutRoundUpdates M S).2) ∧
    (∀ q ∈ KNOCKOUT_PROGRESSION, firesb M S q = true → ∀ E, expectedOf M S q = some E →
      (getKnockoutRoundUpdates M S).1.filter (fun i => decide (i.phase = q.nextPhase))
        = (missingOf M q E).map (mkInsert q)) ∧
    (∀ q ∈ KNOCKOUT_PROGRESSION, ∀ E, expectedOf M S q = some E → ∀ e ∈ E,
      (∃ ex ∈ M, ex.phase = q.nextPhase ∧ pairEqME ex e = true) →
      mkInsert q e ∉ (getKnockoutRoundUpdates M S).1 ∧
      ∀ ex ∈ M, ex.phase = q.nextPhase → pairEqME ex e = true →
        ex.id ∉ (getKnockoutRoundUpdates M S).2) ∧
    (getKnockoutRoundUpdates fixC3M fixStandings10
      = ([⟨3, 9, .knockout_r2, .scheduled, some 1⟩], [5])) := by
  refine ⟨?_, ?_, ?_, ?_, by decide⟩
  · intro x hx
    obtain ⟨q, hq, E, hf, hE, m, hm, hmid, hph, hst, hall⟩ := deletes_sound M S x hx
    exact ⟨m, hm, hmid, hst, q, hq, hph, E, hE, hall⟩
  · intro m hm hst hmem
    obtain ⟨q, hq, E, hf, hE, m', hm', hmid, hph, hsched, hall⟩ := deletes_sound M S _ hmem
    have : m' = m := List.inj_on_of_nodup_map hN hm' hm hmid
    rw [this] at hsched
    rw [hst] at hsched
    exact Status.noConfusion hsched
  · intro q hq hf E hE
    rw [getKnockoutRoundUpdates_eq]
    simp only [List.filter_append]
    simp only [KNOCKOUT_PROGRESSION, List.mem_cons, List.not_mem_nil, or_false] at hq
    rcases hq with h | h | h <;> subst h
    · rw [filter_phase_component_self M S _ hf E hE,
        filter_phase_component_ne M S _ _ (by decide),
        filter_phase_component_ne M S _ _ (by decide)]
      simp
    · rw [filter_phase_component_self M S _ hf E hE,
        filter_phase_component_ne M S _ _ (by decide),
        filter_phase_component_ne M S _ _ (by decide)]
      simp
    · rw [filter_phase_component_self M S _ hf E hE,
        filter_phase_component_ne M S _ _ (by decide),
        filter_phase_component_ne M S _ _ (by decide)]
      simp
  · intro q hq E hE e he hexist
    obtain ⟨ex0, hex0, hph0, hpair0⟩ := hexist
    constructor
    · intro hmem
      obtain ⟨qa, hqa, Ea, hfa, hEa, ea, hea, heqa, halla⟩ := inserts_sound M S _ hmem
      have hphase_eq : q.nextPhase = qa.nextPhase := by
        have := congrArg InsertRec.phase heqa
        simpa [mkInsert] using this
      have hqq : q = qa := nextPhase_inj q hq qa hqa hphase_eq
      subst hqq
      have hee : e = ea := by
        have h1 := congrArg InsertRec.player1_id heqa
        have h2 := congrArg InsertRec.player2_id heqa
        have h3 := congrArg InsertRec.knockout_position heqa
        simp only [mkInsert] at h1 h2 h3
        cases e
        cases ea
        simp only at h1 h2 h3
        simp [h1, h2, h3]
      subst hee
      have := halla ex0 hex0 hph0
      rw [hpair0] at this
      exact Bool.noConfusion this
    · intro ex hex hph hpair hdel
      obtain ⟨qb, hqb, Eb, hfb, hEb, m, hm, hmid, hphb, hschedb, hallb⟩ :=
        deletes_sound M S _ hdel
      have hmex : m = ex := List.inj_on_of_nodup_map hN hm hex hmid
      subst hmex
      have hphase_eq : qb.nextPhase = q.nextPhase := by
        rw [← hphb, hph]
      have hqq : qb = q := nextPhase_inj qb hqb q hq hphase_eq
      subst hqq
      rw [hE] at hEb
      have hEE : E = Eb := Option.some.inj hEb
      subst hEE
      have := hallb e he
      rw [hpair] at this
      exact Bool.noConfusion this

/-- Witness for C3: the fixture has distinct match ids and the engine deletes
exactly the stale scheduled round-2 match and inserts the corrected pairing. -/
theorem claim_C3_witness :
    ((fixC3M.map Match.id).Nodup) ∧
    (getKnockoutRoundUpdates fixC3M fixStandings10
      = ([⟨3, 9, .knockout_r2, .scheduled, some 1⟩], [5])) :=
  ⟨by decide, (claim_C3 fixC3M fixStandings10 (by decide)).2.2.2.2⟩

/-! ### C4 -/

theorem mem_applyDiff (M : List Match) (d : List InsertRec × List Nat) (ex : Match) :
    ex ∈ applyDiff M d ↔
      (ex ∈ M ∧ ex.id ∉ d.2) ∨
        ex ∈ attachIds ((M.map (fun m => m.id)).foldl max 0 + 1) d.1 := by
  simp [applyDiff, List.mem_filter]

theorem progressionOps_applyDiff_empty (M : List Match) (S : List PlayerStanding)
    (hN : (M.map Match.id).Nodup) (q : KnockoutProgression) (hq : q ∈ KNOCKOUT_PROGRESSION)
    (hfq : firesb (applyDiff M (getKnockoutRoundUpdates M S)) S q = firesb M S q)
    (heq : firesb M S q = true →
      expectedOf (applyDiff M (getKnockoutRoundUpdates M S)) S q = expectedOf M S q) :
    progressionOps (applyDiff M (getKnockoutRoundUpdates M S)) S q = ([], []) := by
  by_cases hf : firesb M S q = true
  case neg =>
    rw [Bool.not_eq_true] at hf
    exact progressionOps_of_not_fires _ _ _ (by rw [hfq, hf])
  case pos =>
  obtain ⟨-, -, -, hsome⟩ := firesb_parts M S q hf
  obtain ⟨E, hE⟩ := Option.isSome_iff_exists.mp hsome
  have hE' : expectedOf (applyDiff M (getKnockoutRoundUpdates M S)) S q = some E := by
    rw [heq hf, hE]
  have hf' : firesb (applyDiff M (getKnockoutRoundUpdates M S)) S q = true := by
    rw [hfq]; exact hf
  rw [progressionOps_of_fires _ S q hf' E hE']
  have hstale : staleOf (applyDiff M (getKnockoutRoundUpdates M S)) q E = [] := by
    rw [staleOf, List.filter_eq_nil_iff]
    intro ex hex
    rw [List.mem_filter] at hex
    obtain ⟨hex1, hsched⟩ := hex
    rw [nextPhaseMatchesOf, List.mem_filter] at hex1
    obtain ⟨hexM', hphase⟩ := hex1
    rw [decide_eq_true_eq] at hphase
    rw [decide_eq_true_eq] at hsched
    simp only [decide_eq_true_eq, not_not]
    rcases (mem_applyDiff M (getKnockoutRoundUpdates M S) ex).mp hexM' with
      ⟨hexM, hnotdel⟩ | hexNew
    · by_cases hany : E.any (fun e => pairEqME ex e) = true
      · exact hany
      · exfalso
        apply hnotdel
        have hstalemem : ex ∈ staleOf M q E := by
          rw [staleOf, List.mem_filter]
          refine ⟨?_, ?_⟩
          · rw [List.mem_filter]
            refine ⟨?_, by simp [hsched]⟩
            rw [nextPhaseMatchesOf, List.mem_filter]
            exact ⟨hexM, by simp [hphase]⟩
          · simp only [decide_eq_true_eq]
            exact hany
        have hxdel : ex.id ∈ (progressionOps M S q).2 := by
          rw [progressionOps_of_fires M S q hf E hE]
          exact List.mem_map.mpr ⟨ex, hstalemem, rfl⟩
        exact component_subset_deletes M S q hq ex.id hxdel
    · obtain ⟨n, i, hiIn, hexEq⟩ := mem_attachIds hexNew
      obtain ⟨qa, hqa, Ea, hfa, hEa, ea, heaEa, hieq, -⟩ := inserts_sound M S i hiIn
      have hpp : qa.nextPhase = q.nextPhase := by
        rw [← hphase, hexEq, hieq]
        simp [insertToMatch, mkInsert]
      have hqq : qa = q := nextPhase_inj qa hqa q hq hpp
      subst hqq
      rw [hE] at hEa
      have hEE : E = Ea := Option.some.inj hEa
      subst hEE
      refine List.any_eq_true.mpr ⟨ea, heaEa, ?_⟩
      rw [hexEq, hieq]
      simp [pairEqME, insertToMatch, mkInsert]
  have hmissing : missingOf (applyDiff M (getKnockoutRoundUpdates M S)) q E = [] := by
    rw [missingOf, List.filter_eq_nil_iff]
    intro e he
    simp only [decide_eq_true_eq, not_not]
    by_cases hcase : ∃ ex, ex ∈ M ∧ ex.phase = q.nextPhase ∧ pairEqME ex e = true
    · obtain ⟨ex, hexM, hph, hp⟩ := hcase
      have hnotdel : ex.id ∉ (getKnockoutRoundUpdates M S).2 := by
        intro hdel
        obtain ⟨qb, hqb, Eb, hfb, hEb, m, hmM, hmid, hphb, hschedb, hallb⟩ :=
          deletes_sound M S ex.id hdel
        have hmex : m = ex := List.inj_on_of_nodup_map hN hmM hexM hmid
        subst hmex
        have hppb : qb.nextPhase = q.nextPhase := by rw [← hphb, hph]
        have hqbq : qb = q := nextPhase_inj qb hqb q hq hppb
        subst hqbq
        rw [hE] at hEb
        have hEE : E = Eb := Option.some.inj hEb
        subst hEE
        have hcontra := hallb e he
        rw [hp] at hcontra
        exact Bool.noConfusion hcontra
      refine List.any_eq_true.mpr ⟨ex, ?_, hp⟩
      rw [nextPhaseMatchesOf, List.mem_filter]
      refine ⟨?_, by simp [hph]⟩
      exact (mem_applyDiff M _ ex).mpr (Or.inl ⟨hexM, hnotdel⟩)
    · push_neg at hcase
      have hmiss : e ∈ missingOf M q E := by
        rw [missingOf, List.mem_filter]
        refine ⟨he, ?_⟩
        simp only [decide_eq_true_eq]
        intro hanyM
        obtain ⟨ex, hexmem, hp⟩ := List.any_eq_true.mp hanyM
        rw [nextPhaseMatchesOf, List.mem_filter] at hexmem
        have hphx : ex.phase = q.nextPhase := by simpa using hexmem.2
        exact absurd hp (hcase ex hexmem.1 hphx)
      have hiIns : mkInsert q e ∈ (progressionOps M S q).1 := by
        rw [progressionOps_of_fires M S q hf E hE]
        exact List.mem_map.mpr ⟨e, hmiss, rfl⟩
      have hiD : mkInsert q e ∈ (getKnockoutRoundUpdates M S).1 :=
        component_subset_inserts M S q hq _ hiIns
      obtain ⟨n, hn⟩ :=
        @mem_attachIds_of_mem ((M.map (fun m => m.id)).foldl max 0 + 1) _ _ hiD
      refine List.any_eq_true.mpr ⟨insertToMatch n (mkInsert q e), ?_, ?_⟩
      · rw [nextPhaseMatchesOf, List.mem_filter]
        exact ⟨(mem_applyDiff M _ _).mpr (Or.inr hn), by simp [insertToMatch, mkInsert]⟩
      · simp [pairEqME, insertToMatch, mkInsert]
  rw [hstale, hmissing]
  rfl

/-- Completed round 1 (winners 3,4,5,6), completed round 2 (winners 3,5), plus
a stale scheduled round-2 match between players 8 and 9. -/
def fixC4M : List Match :=
  fixR1done ++
    [ fixKO 5 3 4 .knockout_r2 .completed (some 3) (some 1)
    , fixKO 6 5 6 .knockout_r2 .completed (some 5) (some 2)
    , fixKO 7 8 9 .knockout_r2 .scheduled none none ]

/-- C4: on this fixture (completed round 1 plus a completed round 2 with an extra
stale scheduled round-2 match) the first run only deletes the stale match; once
the diff is applied, round 2 becomes exactly 2 completed matches, so the second
run newly fires the r2→semifinal transition and emits nonempty inserts — the
unconditional idempotence claim fails. -/
theorem claim_C4_counterexample :
    ¬ (getKnockoutRoundUpdates
        (applyDiff fixC4M (getKnockoutRoundUpdates fixC4M fixStandings10))
        fixStandings10 = ([], [])) := by
  decide

/-- C4 (amended): applying the engine's own diff and re-running yields an empty
diff, provided match ids are unique, applying the diff does not change which
phase transitions fire, and for fired transitions it does not change the
expected matchups. (Unconditionally the claim is false: deleting stale
next-phase matches can make a later transition newly fire, as the
counterexample shows.) -/
theorem claim_C4_amended (M : List Match) (S : List PlayerStanding)
    (hN : (M.map Match.id).Nodup)
    (hfires : ∀ q ∈ KNOCKOUT_PROGRESSION,
      firesb (applyDiff M (getKnockoutRoundUpdates M S)) S q = firesb M S q)
    (hexp : ∀ q ∈ KNOCKOUT_PROGRESSION, firesb M S q = true →
      expectedOf (applyDiff M (getKnockoutRoundUpdates M S)) S q = expectedOf M S q) :
    getKnockoutRoundUpdates (applyDiff M (getKnockoutRoundUpdates M S)) S = ([], []) := by
  rw [getKnockoutRoundUpdates_eq (applyDiff M (getKnockoutRoundUpdates M S)) S]
  rw [progressionOps_applyDiff_empty M S hN ⟨.knockout_r1, .knockout_r2, 4⟩ (by decide)
      (hfires ⟨.knockout_r1, .knockout_r2, 4⟩ (by decide))
      (hexp ⟨.knockout_r1, .knockout_r2, 4⟩ (by decide)),
    progressionOps_applyDiff_empty M S hN ⟨.knockout_r2, .semifinal, 2⟩ (by decide)
      (hfires ⟨.knockout_r2, .semifinal, 2⟩ (by decide))
      (hexp ⟨.knockout_r2, .semifinal, 2⟩ (by decide)),
    progressionOps_applyDiff_empty M S hN ⟨.semifinal, .final, 2⟩ (by decide)
      (hfires ⟨.semifinal, .final, 2⟩ (by decide))
      (hexp ⟨.semifinal, .final, 2⟩ (by decide))]
  rfl

/-- Witness for C4: the completed-round-1 fixture satisfies the amended
theorem's hypotheses (distinct ids; applying the diff adds only scheduled
round-2 matches, changing no firing guard and no expected matchup), so the
second run is empty. -/
theorem claim_C4_witness :
    getKnockoutRoundUpdates
      (applyDiff fixR1done (getKnockoutRoundUpdates fixR1done fixStandings10))
      fixStandings10 = ([], []) :=
  claim_C4_amended fixR1done fixStandings10 (by decide) (by decide) (by decide)

end TT
